import Mathlib

/-!
Shallow embedding of the Darth Invader scenario simulation engine
(`src/utils.js` and the attack-simulation engine file), together with
theorems checking the natural-language specification against it.

Numeric values are modelled as `ℚ` (exact rationals standing for JS
numbers).  The only JS primitives with no exact rational meaning are
`Math.sin`/`Math.cos` (used for the RNG's chaotic transform and for node
layout) and `Math.PI`; the whole development is therefore parametrised by
an environment `Env` supplying those functions as abstract `ℚ`-valued
maps.  Every property proved below holds for every such environment, and
concrete environments are used to evaluate the definitions on concrete
inputs.  `setTimeout` relay/forward callbacks are modelled by an explicit
FIFO queue of pending actions on the simulation state together with an
explicit `fire` event; the interleaving of `fire` events with `tick`
(update) events models the real-time scheduling nondeterminism of the
platform timer.
-/

/-- Abstract environment: `noise s` is the value of
`frac (Math.sin s * 10000)` used by `SeededRandom.next`; `cosF`, `sinF`,
`piQ` stand for `Math.cos`, `Math.sin`, `Math.PI` in layout code. -/
structure Env where
  noise : ℤ → ℚ
  cosF : ℚ → ℚ
  sinF : ℚ → ℚ
  piQ : ℚ

/-- State of the seeded RNG (`class SeededRandom` in utils.js). -/
structure SeededRandom where
  seed : ℤ
  originalSeed : ℤ
  deriving DecidableEq, Repr

/-- JS `new SeededRandom(seed)`. -/
def SeededRandom.mkRandom (seed : ℤ) : SeededRandom :=
  { seed := seed, originalSeed := seed }

/-- JS `reset()`: restores `seed` to `originalSeed`. -/
def SeededRandom.reset (r : SeededRandom) : SeededRandom :=
  { r with seed := r.originalSeed }

/-- JS `setSeed(newSeed)`: overwrites both fields. -/
def SeededRandom.setSeed (_r : SeededRandom) (newSeed : ℤ) : SeededRandom :=
  { seed := newSeed, originalSeed := newSeed }

/-- JS `next()`: `const x = Math.sin(this.seed++) * 10000; return x - Math.floor(x)`.
The fractional value is supplied by the environment; the seed advances by 1. -/
def SeededRandom.next (env : Env) (r : SeededRandom) : ℚ × SeededRandom :=
  (env.noise r.seed, { r with seed := r.seed + 1 })

/-- JS `range(min, max) = min + next() * (max - min)`. -/
def SeededRandom.range (env : Env) (r : SeededRandom) (lo hi : ℚ) : ℚ × SeededRandom :=
  (lo + (SeededRandom.next env r).1 * (hi - lo), (SeededRandom.next env r).2)

/-- JS `int(min, max) = Math.floor(range(min, max + 1))`. -/
def SeededRandom.intIn (env : Env) (r : SeededRandom) (lo hi : ℤ) : ℤ × SeededRandom :=
  (⌊(SeededRandom.range env r (lo : ℚ) ((hi : ℚ) + 1)).1⌋,
    (SeededRandom.range env r (lo : ℚ) ((hi : ℚ) + 1)).2)

/-- JS `choice(array) = array[this.int(0, array.length - 1)]`.  A JS index
read that is out of bounds yields `undefined`, modelled as `none`. -/
def SeededRandom.choice (env : Env) (r : SeededRandom) (xs : List α) :
    Option α × SeededRandom :=
  let i := (SeededRandom.intIn env r 0 ((xs.length : ℤ) - 1)).1
  (if 0 ≤ i then xs.get? i.toNat else none,
    (SeededRandom.intIn env r 0 ((xs.length : ℤ) - 1)).2)

/-- First `n` outputs of repeated `next()` calls. -/
def SeededRandom.nextStream (env : Env) (r : SeededRandom) : ℕ → List ℚ
  | 0 => []
  | n + 1 =>
    let (v, r') := SeededRandom.next env r
    v :: SeededRandom.nextStream env r' n

/-- The RNG after `k` calls to `next()` (outputs discarded). -/
def SeededRandom.advance (env : Env) (r : SeededRandom) : ℕ → SeededRandom
  | 0 => r
  | k + 1 => SeededRandom.advance env (SeededRandom.next env r).2 k

/-- JS `MathUtils.lerp(start, end, t) = start + (end - start) * t`. -/
def MathUtils.lerp (start stop t : ℚ) : ℚ :=
  start + (stop - start) * t

/-- Node kinds (`type` field of `class Node`). -/
inductive NType where
  | server | client | attacker | firewall
  deriving DecidableEq, Repr

/-- Packet kinds (`type` field of `class Packet`). -/
inductive PType where
  | normal | attack | blocked
  deriving DecidableEq, Repr

/-- A network node (`class Node` in utils.js).  The render-only
`pulsePhase` field (drawn from `Math.random()`, read by nothing but the
canvas renderer) is omitted; every other field is carried.  Nodes are
immutable after `initialize()`. -/
structure Node where
  id : String
  ntype : NType
  x : ℚ
  y : ℚ
  radius : ℚ
  connections : List String
  deriving DecidableEq, Repr

/-- A packet (`class Packet` in utils.js).  The JS packet holds references
to its immutable source/target `Node`s and reads only their coordinates;
the embedding copies those four coordinates at creation time. -/
structure Packet where
  id : ℕ
  srcX : ℚ
  srcY : ℚ
  tgtX : ℚ
  tgtY : ℚ
  ptype : PType
  speed : ℚ
  progress : ℚ
  x : ℚ
  y : ℚ
  active : Bool
  trail : List (ℚ × ℚ)
  deriving DecidableEq, Repr

/-- JS `Packet.update()`: returns the mutated packet together with the
boolean the method returns (`false` exactly when the packet is inactive or
deactivates this call). -/
def Packet.update (p : Packet) : Packet × Bool :=
  if p.active = false then (p, false)
  else
    let progress := p.progress + p.speed * (1 / 100)
    if 1 ≤ progress then ({ p with progress := progress, active := false }, false)
    else
      let t := progress
      let ease := if t < 1 / 2 then 2 * t * t else -1 + (4 - 2 * t) * t
      let x := MathUtils.lerp p.srcX p.tgtX ease
      let y := MathUtils.lerp p.srcY p.tgtY ease
      let trail0 := p.trail ++ [(x, y)]
      let trail1 := if 10 < trail0.length then trail0.drop 1 else trail0
      ({ p with progress := progress, x := x, y := y, trail := trail1 }, true)

/-- Scenario configuration (the `SCENARIOS` objects).  Each source object
carries only the fields its own variant reads; unused fields default to 0.
The source `ddos` entry also carries `duration: 60` and every entry a
`name`, `description` and `nodeLayout` hint, none of which is read by the
engine; they are omitted. -/
structure Scenario where
  attackers : ℕ := 0
  clients : ℕ := 0
  legitimateClients : ℕ := 0
  nodes : ℕ := 0
  packetsPerSecond : ℚ := 0
  blockRate : ℚ := 0
  deriving DecidableEq, Repr

/-- `SCENARIOS.ddos` (attackers 30, packetsPerSecond 100). -/
def SCENARIOS.ddos : Scenario :=
  { attackers := 30, packetsPerSecond := 100 }

/-- `SCENARIOS.mitm` (attackers 1, clients 2, packetsPerSecond 20). -/
def SCENARIOS.mitm : Scenario :=
  { attackers := 1, clients := 2, packetsPerSecond := 20 }

/-- `SCENARIOS.firewall` (attackers 10, legitimateClients 5,
packetsPerSecond 50, blockRate 0.8). -/
def SCENARIOS.firewall : Scenario :=
  { attackers := 10, legitimateClients := 5, packetsPerSecond := 50, blockRate := 8 / 10 }

/-- `SCENARIOS.arpSpoof` (nodes 8, attacker 1, packetsPerSecond 30; the
source's singular `attacker: 1` field is never read by the engine). -/
def SCENARIOS.arpSpoof : Scenario :=
  { nodes := 8, attackers := 1, packetsPerSecond := 30 }

/-- The closed set of scenario variants (the four subclasses). -/
inductive Scn where
  | ddos | mitm | firewall | arpSpoof
  deriving DecidableEq, Repr

/-- Metrics accumulator (`this.metrics`). -/
structure Metrics where
  packetsSent : ℕ
  packetsReceived : ℕ
  packetsDropped : ℕ
  packetsBlocked : ℕ
  serverLoad : ℚ
  latency : ℚ
  deriving DecidableEq, Repr

/-- A deferred `setTimeout` callback scheduled by `generatePackets`.
`relay` covers the MITM and ARP-spoof forwarding closures (which capture
two immutable nodes and unconditionally create one packet); `fwDecide`
covers the firewall closure, which captures the created packet (by id),
whether its source was an attacker, the firewall and server nodes, and the
packet type to forward. -/
inductive PendingAction where
  | relay (src tgt : Node) (ptype : PType) (speed : ℚ)
  | fwDecide (packetId : ℕ) (isAttack : Bool) (fwNode serverNode : Node) (ptype : PType)
  deriving DecidableEq, Repr

/-- State of `class AttackSimulation` (and its four subclasses; `scn`
records which subclass the object is).  `pending` is the FIFO queue of
scheduled `setTimeout` callbacks not yet fired; `initCount` counts calls
to `initialize()`. -/
structure AttackSimulation where
  scn : Scn
  scenario : Scenario
  rng : SeededRandom
  canvasWidth : ℚ
  canvasHeight : ℚ
  nodes : List Node
  packets : List Packet
  metrics : Metrics
  time : ℚ
  packetIdCounter : ℕ
  pending : List PendingAction
  initCount : ℕ
  deriving DecidableEq, Repr

/-- The `AttackSimulation` constructor. -/
def AttackSimulation.mkSim (scn : Scn) (scenario : Scenario) (rng : SeededRandom)
    (canvasWidth canvasHeight : ℚ) : AttackSimulation :=
  { scn := scn, scenario := scenario, rng := rng,
    canvasWidth := canvasWidth, canvasHeight := canvasHeight,
    nodes := [], packets := [],
    metrics := { packetsSent := 0, packetsReceived := 0, packetsDropped := 0,
                 packetsBlocked := 0, serverLoad := 0, latency := 0 },
    time := 0, packetIdCounter := 0, pending := [], initCount := 0 }

/-- The packet `new Packet(this.packetIdCounter++, source, target, type, speed)`
allocates (constructor of `class Packet`). -/
def AttackSimulation.newPacket (s : AttackSimulation) (src tgt : Node)
    (ptype : PType) (speed : ℚ) : Packet :=
  { id := s.packetIdCounter, srcX := src.x, srcY := src.y, tgtX := tgt.x, tgtY := tgt.y,
    ptype := ptype, speed := speed, progress := 0, x := src.x, y := src.y,
    active := true, trail := [] }

/-- JS `createPacket(source, target, type, speed)`: allocates the next id,
appends to the live collection, increments `packetsSent`. -/
def AttackSimulation.createPacket (s : AttackSimulation) (src tgt : Node)
    (ptype : PType) (speed : ℚ) : AttackSimulation :=
  { s with packets := s.packets ++ [s.newPacket src tgt ptype speed],
           packetIdCounter := s.packetIdCounter + 1,
           metrics := { s.metrics with packetsSent := s.metrics.packetsSent + 1 } }

/-- The packet sweep `this.packets = this.packets.filter(p => p.update())`:
each packet is stepped and retained exactly when its `update()` returned
`true` (the retained element being the mutated packet). -/
def AttackSimulation.sweepPackets (ps : List Packet) : List Packet :=
  ps.filterMap fun p =>
    let r := p.update
    if r.2 then some r.1 else none

/-- Number of active packets (`this.packets.filter(p => p.active).length`). -/
def activePacketCount (ps : List Packet) : ℕ :=
  (ps.filter fun p => p.active).length

/-- Number of live-list packets with `!p.active && p.progress >= 1` (the
per-tick increment every received-counting loop would apply). -/
def countArrivals (ps : List Packet) : ℕ :=
  (ps.filter fun p => !p.active && decide (1 ≤ p.progress)).length

/-- Firewall variant of the arrivals count (`packet.type !== 'blocked'`). -/
def countArrivalsNonBlocked (ps : List Packet) : ℕ :=
  (ps.filter fun p => !p.active && decide (1 ≤ p.progress) && p.ptype != PType.blocked).length

/-- `packetsThisFrame = (intensity / 100) * scenario.packetsPerSecond * 0.016`. -/
def packetsThisFrame (scenario : Scenario) (intensity : ℚ) : ℚ :=
  intensity / 100 * scenario.packetsPerSecond * (16 / 1000)

/-- Iterations of `for (let i = 0; i < x; i++)` for a (possibly
fractional) bound `x`: `max 0 ⌈x⌉`. -/
def loopCount (x : ℚ) : ℕ :=
  (Int.ceil x).toNat

/-- The server node `DDoSAttack.initializeSim` places in the centre. -/
def DDoSAttack.serverNode (s : AttackSimulation) : Node :=
  { id := "server", ntype := .server, x := s.canvasWidth / 2, y := s.canvasHeight / 2,
    radius := 40, connections := [] }

/-- The i-th attacker node `DDoSAttack.initializeSim` places on the circle
(`connections = ['server']`). -/
def DDoSAttack.attackerNode (env : Env) (s : AttackSimulation) (i : ℕ) : Node :=
  let attackerCount := s.scenario.attackers
  let radius := min s.canvasWidth s.canvasHeight * (35 / 100)
  let angle := (i : ℚ) / (attackerCount : ℚ) * env.piQ * 2
  { id := "attacker-" ++ toString i, ntype := NType.attacker,
    x := s.canvasWidth / 2 + env.cosF angle * radius,
    y := s.canvasHeight / 2 + env.sinF angle * radius,
    radius := 15, connections := ["server"] }

/-- `DDoSAttack.initializeSim()`: one server node in the centre, then
`scenario.attackers` attacker nodes evenly spaced on a circle, each with
`connections = ['server']`. -/
def DDoSAttack.initializeSim (env : Env) (s : AttackSimulation) : AttackSimulation :=
  { s with
    nodes := s.nodes ++ DDoSAttack.serverNode s
      :: (List.range s.scenario.attackers).map (DDoSAttack.attackerNode env s),
    initCount := s.initCount + 1 }

/-- `MITMAttack.initializeSim()`: two clients flanking one attacker,
bidirectionally connected. -/
def MITMAttack.initializeSim (s : AttackSimulation) : AttackSimulation :=
  let client1 : Node :=
    { id := "client1", ntype := .client, x := s.canvasWidth * (25 / 100),
      y := s.canvasHeight / 2, radius := 25, connections := ["attacker"] }
  let client2 : Node :=
    { id := "client2", ntype := .client, x := s.canvasWidth * (75 / 100),
      y := s.canvasHeight / 2, radius := 25, connections := ["attacker"] }
  let attacker : Node :=
    { id := "attacker", ntype := .attacker, x := s.canvasWidth / 2,
      y := s.canvasHeight / 2, radius := 30, connections := ["client1", "client2"] }
  { s with nodes := s.nodes ++ [client1, attacker, client2], initCount := s.initCount + 1 }

/-- Body of the `FirewallAttack.initializeSim` node loop: one mixed
attacker/client node with an rng-jittered x coordinate. -/
def FirewallAttack.initNode (env : Env) (totalNodes : ℕ) (s : AttackSimulation)
    (i : ℕ) : AttackSimulation :=
  let isAttacker := i < s.scenario.attackers
  let offset := (SeededRandom.range env s.rng (-50) 50).1
  let rng' := (SeededRandom.range env s.rng (-50) 50).2
  let node : Node :=
    { id := "node-" ++ toString i, ntype := if isAttacker then .attacker else .client,
      x := s.canvasWidth * (15 / 100) + offset,
      y := (i : ℚ) / (totalNodes : ℚ) * s.canvasHeight * (8 / 10) + s.canvasHeight * (1 / 10),
      radius := 15, connections := ["firewall"] }
  { s with rng := rng', nodes := s.nodes ++ [node] }

/-- `FirewallAttack.initializeSim()`: server, firewall (connected to the
server), then `attackers + legitimateClients` mixed nodes connected to the
firewall.  The node loop consumes the rng (one `range` call per node). -/
def FirewallAttack.initializeSim (env : Env) (s : AttackSimulation) : AttackSimulation :=
  let server : Node :=
    { id := "server", ntype := .server, x := s.canvasWidth * (75 / 100),
      y := s.canvasHeight / 2, radius := 35, connections := [] }
  let firewall : Node :=
    { id := "firewall", ntype := .firewall, x := s.canvasWidth / 2,
      y := s.canvasHeight / 2, radius := 30, connections := ["server"] }
  let s := { s with nodes := s.nodes ++ [server, firewall] }
  let totalNodes := s.scenario.attackers + s.scenario.legitimateClients
  let s := (List.range totalNodes).foldl (FirewallAttack.initNode env totalNodes) s
  { s with initCount := s.initCount + 1 }

/-- `Math.ceil(Math.sqrt n)` for a natural `n`. -/
def ceilSqrt (n : ℕ) : ℕ :=
  if n = 0 then 0 else Nat.sqrt (n - 1) + 1

/-- `ARPSpoofAttack.initializeSim()`: `scenario.nodes` clients on a grid, one
attacker at the canvas centre, then every non-attacker node has
`'attacker'` pushed onto its connections. -/
def ARPSpoofAttack.initializeSim (s : AttackSimulation) : AttackSimulation :=
  let gridSize := ceilSqrt s.scenario.nodes
  let spacing := min s.canvasWidth s.canvasHeight * (7 / 10) / (gridSize : ℚ)
  let offsetX := (s.canvasWidth - spacing * (gridSize : ℚ)) / 2
  let offsetY := (s.canvasHeight - spacing * (gridSize : ℚ)) / 2
  let clients := (List.range s.scenario.nodes).map fun i =>
    let row := i / gridSize
    let col := i % gridSize
    { id := "node-" ++ toString i, ntype := NType.client,
      x := offsetX + (col : ℚ) * spacing + spacing / 2,
      y := offsetY + (row : ℚ) * spacing + spacing / 2,
      radius := 20, connections := [] : Node }
  let attacker : Node :=
    { id := "attacker", ntype := .attacker, x := s.canvasWidth / 2,
      y := s.canvasHeight / 2, radius := 25, connections := [] }
  let allNodes := (s.nodes ++ clients ++ [attacker]).map fun n =>
    if n.ntype ≠ .attacker then { n with connections := n.connections ++ ["attacker"] } else n
  { s with nodes := allNodes, initCount := s.initCount + 1 }

/-- The body-iteration of a `for (let i = 0; i < bound; i++)` loop whose
body does not read `i`: apply the body `n` times, threading the state. -/
def iterateSlots (f : AttackSimulation → AttackSimulation) : ℕ → AttackSimulation → AttackSimulation
  | 0, s => s
  | n + 1, s => iterateSlots f n (f s)

/-- One iteration of the `DDoSAttack.generatePackets` loop: with
`next() < 0.5`, `choice` an attacker and send an `'attack'` packet (speed
2) to the server.  The `none` branch of `choice` is unreachable from an
initialized simulation (JS would fault on an `undefined` node there). -/
def DDoSAttack.genSlot (env : Env) (server : Node) (attackers : List Node)
    (s : AttackSimulation) : AttackSimulation :=
  let v := (SeededRandom.next env s.rng).1
  let s := { s with rng := (SeededRandom.next env s.rng).2 }
  if v < 1 / 2 then
    let pick := (SeededRandom.choice env s.rng attackers).1
    let s := { s with rng := (SeededRandom.choice env s.rng attackers).2 }
    match pick with
    | some attacker => s.createPacket attacker server .attack 2
    | none => s
  else s

/-- `DDoSAttack.generatePackets(intensity)`.  The `none` branch (no node
with id `'server'`) is unreachable from an initialized simulation. -/
def DDoSAttack.generatePackets (env : Env) (s : AttackSimulation) (intensity : ℚ) :
    AttackSimulation :=
  match s.nodes.find? fun n => n.id == "server" with
  | some server =>
    iterateSlots (DDoSAttack.genSlot env server (s.nodes.filter fun n => n.ntype == NType.attacker))
      (loopCount (packetsThisFrame s.scenario intensity)) s
  | none => s

/-- One iteration of the `MITMAttack.generatePackets` loop: with
`next() < 0.5`, pick a direction with a second `next() < 0.5`, send a
`'normal'` packet (speed 1.5) from the source client to the attacker, and
schedule (`setTimeout`, 500ms) a relay `'attack'` packet from the attacker
to the other client. -/
def MITMAttack.genSlot (env : Env) (client1 client2 attacker : Node)
    (s : AttackSimulation) : AttackSimulation :=
  let v := (SeededRandom.next env s.rng).1
  let s := { s with rng := (SeededRandom.next env s.rng).2 }
  if v < 1 / 2 then
    let w := (SeededRandom.next env s.rng).1
    let s := { s with rng := (SeededRandom.next env s.rng).2 }
    if w < 1 / 2 then
      let s := s.createPacket client1 attacker .normal (3 / 2)
      { s with pending := s.pending ++ [.relay attacker client2 .attack (3 / 2)] }
    else
      let s := s.createPacket client2 attacker .normal (3 / 2)
      { s with pending := s.pending ++ [.relay attacker client1 .attack (3 / 2)] }
  else s

/-- `MITMAttack.generatePackets(intensity)`; the `none` branches are
unreachable from an initialized simulation. -/
def MITMAttack.generatePackets (env : Env) (s : AttackSimulation) (intensity : ℚ) :
    AttackSimulation :=
  match s.nodes.find? (fun n => n.id == "client1"), s.nodes.find? (fun n => n.id == "client2"),
      s.nodes.find? (fun n => n.id == "attacker") with
  | some client1, some client2, some attacker =>
    iterateSlots (MITMAttack.genSlot env client1 client2 attacker)
      (loopCount (packetsThisFrame s.scenario intensity)) s
  | _, _, _ => s

/-- One iteration of the `FirewallAttack.generatePackets` loop: with
`next() < 0.5`, `choice` a client/attacker, send its packet (attack iff
the source is an attacker, speed 1.5) to the firewall, and schedule
(`setTimeout`, 500ms) the firewall's block-or-forward decision capturing
that packet. -/
def FirewallAttack.genSlot (env : Env) (fwNode serverNode : Node) (clients : List Node)
    (s : AttackSimulation) : AttackSimulation :=
  let v := (SeededRandom.next env s.rng).1
  let s := { s with rng := (SeededRandom.next env s.rng).2 }
  if v < 1 / 2 then
    let pick := (SeededRandom.choice env s.rng clients).1
    let s := { s with rng := (SeededRandom.choice env s.rng clients).2 }
    match pick with
    | some client =>
      let isAttack := client.ntype == NType.attacker
      let ptype := if isAttack then PType.attack else PType.normal
      let pid := s.packetIdCounter
      let s := s.createPacket client fwNode ptype (3 / 2)
      { s with pending := s.pending ++ [.fwDecide pid isAttack fwNode serverNode ptype] }
    | none => s
  else s

/-- `FirewallAttack.generatePackets(intensity)`; the `none` branches are
unreachable from an initialized simulation. -/
def FirewallAttack.generatePackets (env : Env) (s : AttackSimulation) (intensity : ℚ) :
    AttackSimulation :=
  match s.nodes.find? (fun n => n.id == "firewall"), s.nodes.find? (fun n => n.id == "server") with
  | some fwNode, some serverNode =>
    iterateSlots (FirewallAttack.genSlot env fwNode serverNode
        (s.nodes.filter fun n => n.ntype == NType.client || n.ntype == NType.attacker))
      (loopCount (packetsThisFrame s.scenario intensity)) s
  | _, _ => s

/-- One iteration of the `ARPSpoofAttack.generatePackets` loop: with
`next() < 0.3`, reroute normal traffic through the attacker (a `'normal'`
packet source→attacker, speed 1, plus a scheduled 400ms relay
attacker→target); otherwise with a further `next() < 0.5`, a direct spoof
`'attack'` packet (speed 2) attacker→random client. -/
def ARPSpoofAttack.genSlot (env : Env) (attacker : Node) (clients : List Node)
    (s : AttackSimulation) : AttackSimulation :=
  let v := (SeededRandom.next env s.rng).1
  let s := { s with rng := (SeededRandom.next env s.rng).2 }
  if v < 3 / 10 then
    let srcPick := (SeededRandom.choice env s.rng clients).1
    let s := { s with rng := (SeededRandom.choice env s.rng clients).2 }
    match srcPick with
    | some source =>
      let tgtPick :=
        (SeededRandom.choice env s.rng (clients.filter fun c => c.id != source.id)).1
      let s := { s with rng :=
        (SeededRandom.choice env s.rng (clients.filter fun c => c.id != source.id)).2 }
      match tgtPick with
      | some target =>
        let s := s.createPacket source attacker .normal 1
        { s with pending := s.pending ++ [.relay attacker target .attack 1] }
      | none => s
    | none => s
  else
    let w := (SeededRandom.next env s.rng).1
    let s := { s with rng := (SeededRandom.next env s.rng).2 }
    if w < 1 / 2 then
      let tgtPick := (SeededRandom.choice env s.rng clients).1
      let s := { s with rng := (SeededRandom.choice env s.rng clients).2 }
      match tgtPick with
      | some target => s.createPacket attacker target .attack 2
      | none => s
    else s

/-- `ARPSpoofAttack.generatePackets(intensity)`; the `none` branch is
unreachable from an initialized simulation. -/
def ARPSpoofAttack.generatePackets (env : Env) (s : AttackSimulation) (intensity : ℚ) :
    AttackSimulation :=
  match s.nodes.find? fun n => n.id == "attacker" with
  | some attacker =>
    iterateSlots (ARPSpoofAttack.genSlot env attacker (s.nodes.filter fun n => n.ntype == NType.client))
      (loopCount (packetsThisFrame s.scenario intensity)) s
  | none => s

/-- The overload-drop scan of `DDoSAttack.updateMetrics` (the
`this.packets.forEach` run when `serverLoad > 80`): each active packet
past 90% progress is force-deactivated with `next() < 0.3`, incrementing
the dropped counter.  The short-circuit `&&` consumes one rng value only
when the first two conjuncts hold. -/
def DDoSAttack.dropScan (env : Env) :
    List Packet → SeededRandom → ℕ → List Packet × SeededRandom × ℕ
  | [], rng, dropped => ([], rng, dropped)
  | p :: ps, rng, dropped =>
    if p.active && decide ((9 : ℚ) / 10 < p.progress) then
      if (SeededRandom.next env rng).1 < 3 / 10 then
        let rest := DDoSAttack.dropScan env ps (SeededRandom.next env rng).2 (dropped + 1)
        ({ p with active := false } :: rest.1, rest.2.1, rest.2.2)
      else
        let rest := DDoSAttack.dropScan env ps (SeededRandom.next env rng).2 dropped
        (p :: rest.1, rest.2.1, rest.2.2)
    else
      let rest := DDoSAttack.dropScan env ps rng dropped
      (p :: rest.1, rest.2.1, rest.2.2)

/-- `DDoSAttack.updateMetrics()`. -/
def DDoSAttack.updateMetrics (env : Env) (s : AttackSimulation) : AttackSimulation :=
  let load := min 100 ((activePacketCount s.packets : ℚ) / 50 * 100)
  let lat : ℤ := ⌊(10 : ℚ) + load / 100 * 500⌋
  let s := { s with metrics := { s.metrics with serverLoad := load, latency := (lat : ℚ) } }
  if 80 < load then
    let scan := DDoSAttack.dropScan env s.packets s.rng s.metrics.packetsDropped
    { s with packets := scan.1, rng := scan.2.1,
             metrics := { s.metrics with packetsDropped := scan.2.2 } }
  else
    { s with metrics :=
        { s.metrics with packetsReceived := s.metrics.packetsReceived + countArrivals s.packets } }

/-- `MITMAttack.updateMetrics()` (latency consumes one `range(0,100)`). -/
def MITMAttack.updateMetrics (env : Env) (s : AttackSimulation) : AttackSimulation :=
  let load := min 100 ((activePacketCount s.packets : ℚ) / 20 * 100)
  let rng' := (SeededRandom.range env s.rng 0 100).2
  let lat : ℤ := ⌊(150 : ℚ) + (SeededRandom.range env s.rng 0 100).1⌋
  let m := { s.metrics with serverLoad := load, latency := (lat : ℚ) }
  let m := { m with packetsReceived := m.packetsReceived + countArrivals s.packets }
  { s with rng := rng', metrics := m }

/-- `FirewallAttack.updateMetrics()`. -/
def FirewallAttack.updateMetrics (s : AttackSimulation) : AttackSimulation :=
  let load := min 100 ((activePacketCount s.packets : ℚ) / 30 * 100)
  let lat : ℤ := ⌊(50 : ℚ) + load / 100 * 200⌋
  let m := { s.metrics with serverLoad := load, latency := (lat : ℚ) }
  let m := { m with packetsReceived := m.packetsReceived + countArrivalsNonBlocked s.packets }
  { s with metrics := m }

/-- `ARPSpoofAttack.updateMetrics()` (latency consumes one `range(0,100)`). -/
def ARPSpoofAttack.updateMetrics (env : Env) (s : AttackSimulation) : AttackSimulation :=
  let load := min 100 ((activePacketCount s.packets : ℚ) / 40 * 100)
  let rng' := (SeededRandom.range env s.rng 0 100).2
  let lat : ℤ := ⌊(30 : ℚ) + (SeededRandom.range env s.rng 0 100).1⌋
  let m := { s.metrics with serverLoad := load, latency := (lat : ℚ) }
  let m := { m with packetsReceived := m.packetsReceived + countArrivals s.packets }
  { s with rng := rng', metrics := m }

/-- Dynamic dispatch of `generatePackets` over the subclass. -/
def AttackSimulation.generatePackets (env : Env) (s : AttackSimulation) (intensity : ℚ) :
    AttackSimulation :=
  match s.scn with
  | .ddos => DDoSAttack.generatePackets env s intensity
  | .mitm => MITMAttack.generatePackets env s intensity
  | .firewall => FirewallAttack.generatePackets env s intensity
  | .arpSpoof => ARPSpoofAttack.generatePackets env s intensity

/-- Dynamic dispatch of `updateMetrics` over the subclass. -/
def AttackSimulation.updateMetrics (env : Env) (s : AttackSimulation) : AttackSimulation :=
  match s.scn with
  | .ddos => DDoSAttack.updateMetrics env s
  | .mitm => MITMAttack.updateMetrics env s
  | .firewall => FirewallAttack.updateMetrics s
  | .arpSpoof => ARPSpoofAttack.updateMetrics env s

/-- `AttackSimulation.update(deltaTime, speed, intensity)`: advance time,
sweep the packet list (stepping each packet and dropping the ones whose
`update()` returned false), generate new packets, update metrics. -/
def AttackSimulation.update (env : Env) (s : AttackSimulation)
    (deltaTime speed intensity : ℚ) : AttackSimulation :=
  let s := { s with time := s.time + deltaTime * speed }
  let s := { s with packets := AttackSimulation.sweepPackets s.packets }
  let s := AttackSimulation.generatePackets env s intensity
  AttackSimulation.updateMetrics env s

/-- Firing one scheduled `setTimeout` callback. -/
def AttackSimulation.fireAction (env : Env) (s : AttackSimulation) :
    PendingAction → AttackSimulation
  | .relay src tgt ptype speed => s.createPacket src tgt ptype speed
  | .fwDecide pid isAttack fwNode serverNode ptype =>
    if isAttack then
      let v := (SeededRandom.next env s.rng).1
      let s := { s with rng := (SeededRandom.next env s.rng).2 }
      if v < s.scenario.blockRate then
        { s with
          packets := s.packets.map fun p =>
            if p.id == pid then { p with ptype := .blocked, active := false } else p,
          metrics := { s.metrics with packetsBlocked := s.metrics.packetsBlocked + 1 } }
      else s.createPacket fwNode serverNode ptype (3 / 2)
    else s.createPacket fwNode serverNode ptype (3 / 2)

/-- Driver-visible events: one `update(deltaTime, speed, intensity)` call,
or the platform firing the oldest still-pending `setTimeout` callback
(`fire` on an empty queue is a no-op). -/
inductive Event where
  | tick (deltaTime speed intensity : ℚ)
  | fire
  deriving DecidableEq, Repr

/-- One event step. -/
def AttackSimulation.step (env : Env) (s : AttackSimulation) : Event → AttackSimulation
  | .tick dt sp it => AttackSimulation.update env s dt sp it
  | .fire =>
    match s.pending with
    | [] => s
    | a :: rest => AttackSimulation.fireAction env { s with pending := rest } a

/-- Running a sequence of events. -/
def AttackSimulation.run (env : Env) (s : AttackSimulation) (events : List Event) :
    AttackSimulation :=
  events.foldl (AttackSimulation.step env) s

/-- The subsequence of `update` arguments in an event sequence. -/
def ticksOf (events : List Event) : List (ℚ × ℚ × ℚ) :=
  events.filterMap fun e =>
    match e with
    | .tick dt sp it => some (dt, sp, it)
    | .fire => none

/-- Names of the (own, truthy) members of `Object.prototype`, inherited
by every object literal: `SCENARIOS[name]` for these names yields an
inherited function (or, for `__proto__`, `Object.prototype` itself), so
the `if (!scenario)` guard does not fire for them. -/
def objectPrototypeProps : List String :=
  ["constructor", "hasOwnProperty", "isPrototypeOf", "propertyIsEnumerable",
   "toLocaleString", "toString", "valueOf", "__proto__",
   "__defineGetter__", "__defineSetter__", "__lookupGetter__", "__lookupSetter__"]

/-- The scenario value the switch `default` sees after an inherited
`Object.prototype` lookup: a function/object carrying none of the
scenario fields.  Every read the engine performs on it yields
`undefined`, and the comparisons those reads feed (`i < undefined` as a
loop bound in `initialize`, `i < NaN` from
`(intensity/100) * undefined * 0.016` in `generatePackets`) are false —
observably identical to a scenario whose numeric fields are all 0, which
is how it is modelled here. -/
def inheritedScenario : Scenario := {}

/-- `SimulationFactory.create(scenarioName, rng, w, h)`:
`SCENARIOS[scenarioName]` is a JS property lookup that falls back to the
prototype chain.  The four own keys yield their scenario objects; names
of `Object.prototype` members yield a truthy inherited value, so the
`if (!scenario)` guard does not fire and the `switch` falls to its
`default` case, which builds (and initializes) a `DDoSAttack` from the
inherited value; every other name yields `undefined`, triggering the
`console.error` + `return null` branch (modelled `none`). -/
def SimulationFactory.create (env : Env) (scenarioName : String) (rng : SeededRandom)
    (canvasWidth canvasHeight : ℚ) : Option AttackSimulation :=
  match scenarioName with
  | "ddos" =>
    some (DDoSAttack.initializeSim env
      (AttackSimulation.mkSim .ddos SCENARIOS.ddos rng canvasWidth canvasHeight))
  | "mitm" =>
    some (MITMAttack.initializeSim
      (AttackSimulation.mkSim .mitm SCENARIOS.mitm rng canvasWidth canvasHeight))
  | "firewall" =>
    some (FirewallAttack.initializeSim env
      (AttackSimulation.mkSim .firewall SCENARIOS.firewall rng canvasWidth canvasHeight))
  | "arpSpoof" =>
    some (ARPSpoofAttack.initializeSim
      (AttackSimulation.mkSim .arpSpoof SCENARIOS.arpSpoof rng canvasWidth canvasHeight))
  | _ =>
    if objectPrototypeProps.contains scenarioName then
      some (DDoSAttack.initializeSim env
        (AttackSimulation.mkSim .ddos inheritedScenario rng canvasWidth canvasHeight))
    else
      none

/-- The recognized scenario identifiers (the keys of `SCENARIOS`). -/
def recognizedScenario (name : String) : Bool :=
  name == "ddos" || name == "mitm" || name == "firewall" || name == "arpSpoof"

/-- Which subclass the factory builds for each recognized identifier. -/
def variantOf (name : String) : Option Scn :=
  match name with
  | "ddos" => some .ddos
  | "mitm" => some .mitm
  | "firewall" => some .firewall
  | "arpSpoof" => some .arpSpoof
  | _ => none

/-- Concrete environment whose noise stream is constantly 0 and whose
layout trigonometry is constantly 0, used to evaluate the engine on
concrete inputs. -/
def envZero : Env :=
  { noise := fun _ => 0, cosF := fun _ => 0, sinF := fun _ => 0, piQ := 0 }

/-- Concrete environment whose noise stream is constantly 1/2. -/
def envHalf : Env :=
  { noise := fun _ => 1 / 2, cosF := fun _ => 0, sinF := fun _ => 0, piQ := 0 }

/-- A concrete rng with seed 1. -/
def rngOne : SeededRandom := SeededRandom.mkRandom 1

/-- The MITM simulation the factory builds for `('mitm', rngOne, 800, 600)`. -/
def simMitm : AttackSimulation :=
  MITMAttack.initializeSim (AttackSimulation.mkSim .mitm SCENARIOS.mitm rngOne 800 600)

/-- The DDoS simulation the factory builds for `('ddos', rngOne, 800, 600)`
under `envZero`. -/
def simDdos : AttackSimulation :=
  DDoSAttack.initializeSim envZero (AttackSimulation.mkSim .ddos SCENARIOS.ddos rngOne 800 600)

/-! ### Helper lemmas -/

theorem SeededRandom.advance_originalSeed (env : Env) :
    ∀ (k : ℕ) (r : SeededRandom), (SeededRandom.advance env r k).originalSeed = r.originalSeed := by
  intro k
  induction k with
  | zero => intro r; rfl
  | succ k ih => intro r; simpa [SeededRandom.advance, SeededRandom.next] using ih _

theorem SeededRandom.reset_eq_mkRandom (r : SeededRandom) :
    SeededRandom.reset r = SeededRandom.mkRandom r.originalSeed := rfl

/-! ### C4 -/

/-- C4: for every seed `s` and every `n`, the first `n` outputs of
`next()` from a freshly constructed `SeededRandom s` equal the first `n`
outputs from the same generator after any number `k` of `next()` calls
followed by `reset()`; reproducibility of the output stream under reset. -/
theorem nextStream_reset_eq (env : Env) (s : ℤ) (k n : ℕ) :
    SeededRandom.nextStream env
        (SeededRandom.reset (SeededRandom.advance env (SeededRandom.mkRandom s) k)) n
      = SeededRandom.nextStream env (SeededRandom.mkRandom s) n := by
  rw [SeededRandom.reset_eq_mkRandom, SeededRandom.advance_originalSeed]
  rfl

/-! ### C5 -/

/-- C5 (amended): `choice` on an empty sequence does not fail: it silently
returns JS `undefined` (modelled `none`) while still consuming one rng
step, for every environment and rng state. -/
theorem choice_nil_returns_undefined (env : Env) (r : SeededRandom) (α : Type) :
    SeededRandom.choice env r ([] : List α)
      = (none, { r with seed := r.seed + 1 }) := by
  simp [SeededRandom.choice, SeededRandom.intIn, SeededRandom.range, SeededRandom.next]

/-- C5 counterexample: at the concrete input `new SeededRandom(42)` and
the empty list, `choice` returns normally — the result is the pair
`(undefined, rng with seed advanced to 43)` — rather than failing with an
EmptyInput condition; no error path exists in the source. -/
theorem choice_nil_no_failure_cex :
    SeededRandom.choice envZero (SeededRandom.mkRandom 42) ([] : List ℕ)
      = (none, { seed := 43, originalSeed := 42 }) := by
  with_unfolding_all rfl

/-! ### C6 -/

theorem FirewallAttack.initNode_initCount (env : Env) (total : ℕ) (s : AttackSimulation)
    (i : ℕ) : (FirewallAttack.initNode env total s i).initCount = s.initCount := rfl

theorem FirewallAttack.initNode_scn (env : Env) (total : ℕ) (s : AttackSimulation)
    (i : ℕ) : (FirewallAttack.initNode env total s i).scn = s.scn := rfl

theorem FirewallAttack.foldl_initNode_initCount (env : Env) (total : ℕ) :
    ∀ (l : List ℕ) (s : AttackSimulation),
      (l.foldl (FirewallAttack.initNode env total) s).initCount = s.initCount := by
  intro l
  induction l with
  | nil => intro s; rfl
  | cons i l ih => intro s; rw [List.foldl_cons, ih, FirewallAttack.initNode_initCount]

theorem FirewallAttack.foldl_initNode_scn (env : Env) (total : ℕ) :
    ∀ (l : List ℕ) (s : AttackSimulation),
      (l.foldl (FirewallAttack.initNode env total) s).scn = s.scn := by
  intro l
  induction l with
  | nil => intro s; rfl
  | cons i l ih => intro s; rw [List.foldl_cons, ih, FirewallAttack.initNode_scn]

/-- C6 counterexample: for the unrecognized scenario id `'toString'`,
the prototype-chain lookup `SCENARIOS['toString']` yields the truthy
inherited `Object.prototype.toString`, so the `!scenario` guard does not
fire: no UnknownScenario condition is signalled and the factory returns a
usable, initialized (`initCount = 1`) DDoS-subclass instance — refuting
the claim that every unrecognized id yields no usable instance. -/
theorem factory_prototype_leak_cex :
    SimulationFactory.create envZero "toString" rngOne 800 600
      = some (DDoSAttack.initializeSim envZero
          (AttackSimulation.mkSim .ddos inheritedScenario rngOne 800 600)) ∧
    (DDoSAttack.initializeSim envZero
        (AttackSimulation.mkSim .ddos inheritedScenario rngOne 800 600)).initCount = 1 ∧
    (DDoSAttack.initializeSim envZero
        (AttackSimulation.mkSim .ddos inheritedScenario rngOne 800 600)).scn = Scn.ddos ∧
    (DDoSAttack.initializeSim envZero
        (AttackSimulation.mkSim .ddos inheritedScenario rngOne 800 600)).nodes ≠ [] := by
  refine ⟨by with_unfolding_all rfl, by with_unfolding_all rfl, rfl, ?_⟩
  with_unfolding_all decide

/-- C6 (amended): for every scenario id that is neither one of the four
recognized names nor the name of an inherited `Object.prototype` member,
`SimulationFactory.create` returns no usable instance (`null`, modelled
`none`; the UnknownScenario condition is the `console.error` log at that
same branch); for an unrecognized id naming an `Object.prototype` member
(such as `'toString'`), the truthy inherited lookup bypasses the guard
and the switch `default` returns an initialized `DDoSAttack` built from
the inherited value, with no UnknownScenario signal; whenever a
simulation is returned, `initialize()` has been called on it exactly
once, and for every recognized id it is the matching subclass. -/
theorem factory_create_spec (env : Env) (name : String) (rng : SeededRandom) (w h : ℚ) :
    (recognizedScenario name = false → objectPrototypeProps.contains name = false →
      SimulationFactory.create env name rng w h = none) ∧
    (recognizedScenario name = false → objectPrototypeProps.contains name = true →
      SimulationFactory.create env name rng w h
        = some (DDoSAttack.initializeSim env
            (AttackSimulation.mkSim .ddos inheritedScenario rng w h))) ∧
    (∀ sim, SimulationFactory.create env name rng w h = some sim →
      sim.initCount = 1 ∧ (recognizedScenario name = true → variantOf name = some sim.scn)) := by
  refine ⟨?_, ?_, ?_⟩
  · intro hname hproto
    unfold SimulationFactory.create
    split
    · simp [recognizedScenario] at hname
    · simp [recognizedScenario] at hname
    · simp [recognizedScenario] at hname
    · simp [recognizedScenario] at hname
    · rw [if_neg (by rw [hproto]; exact fun hc => by cases hc)]
  · intro hname hproto
    unfold SimulationFactory.create
    split
    · simp [recognizedScenario] at hname
    · simp [recognizedScenario] at hname
    · simp [recognizedScenario] at hname
    · simp [recognizedScenario] at hname
    · rw [if_pos hproto]
  · intro sim hsim
    unfold SimulationFactory.create at hsim
    split at hsim
    · cases hsim
      refine ⟨?_, fun _ => rfl⟩
      simp [DDoSAttack.initializeSim, AttackSimulation.mkSim]
    · cases hsim
      refine ⟨?_, fun _ => rfl⟩
      simp [MITMAttack.initializeSim, AttackSimulation.mkSim]
    · cases hsim
      refine ⟨?_, fun _ => rfl⟩
      simp [FirewallAttack.initializeSim, FirewallAttack.foldl_initNode_initCount,
        AttackSimulation.mkSim]
    · cases hsim
      refine ⟨?_, fun _ => rfl⟩
      simp [ARPSpoofAttack.initializeSim, AttackSimulation.mkSim]
    · rename_i hd hm hf ha
      split at hsim
      · cases hsim
        refine ⟨?_, fun hrec => ?_⟩
        · simp [DDoSAttack.initializeSim, AttackSimulation.mkSim]
        · exfalso
          simp only [recognizedScenario, Bool.or_eq_true, beq_iff_eq] at hrec
          rcases hrec with ((hrec | hrec) | hrec) | hrec
          · exact hd hrec
          · exact hm hrec
          · exact hf hrec
          · exact ha hrec
      · cases hsim

/-- C6 witness: at the concrete inputs — `'bogus'` (neither recognized
nor a prototype member: `none`), `'toString'` (prototype member: an
initialized default-branch DDoS instance), and `'ddos'` (the matching
variant, initialized exactly once). -/
theorem factory_create_spec_witness :
    SimulationFactory.create envZero "bogus" rngOne 800 600 = none ∧
    SimulationFactory.create envZero "toString" rngOne 800 600
      = some (DDoSAttack.initializeSim envZero
          (AttackSimulation.mkSim .ddos inheritedScenario rngOne 800 600)) ∧
    (SimulationFactory.create envZero "ddos" rngOne 800 600).elim False
      (fun sim => sim.initCount = 1 ∧
        (recognizedScenario "ddos" = true → variantOf "ddos" = some sim.scn)) := by
  refine ⟨?_, ?_, ?_⟩
  · exact (factory_create_spec envZero "bogus" rngOne 800 600).1
      (by with_unfolding_all rfl) (by with_unfolding_all rfl)
  · exact (factory_create_spec envZero "toString" rngOne 800 600).2.1
      (by with_unfolding_all rfl) (by with_unfolding_all rfl)
  · exact (factory_create_spec envZero "ddos" rngOne 800 600).2.2 simDdos
      (by with_unfolding_all rfl)

/-! ### C7 -/

/-- C7: `SimulationFactory.create('ddos', rng, 800, 600)` yields a
simulation whose node collection holds exactly one server node and
exactly `SCENARIOS.ddos.attackers = 30` attacker nodes (no other nodes),
and every attacker node's connections list contains `'server'`. -/
theorem ddos_topology (env : Env) (rng : SeededRandom) (sim : AttackSimulation)
    (h : SimulationFactory.create env "ddos" rng 800 600 = some sim) :
    (sim.nodes.filter fun n => n.ntype == NType.server).length = 1 ∧
    (sim.nodes.filter fun n => n.ntype == NType.attacker).length = SCENARIOS.ddos.attackers ∧
    sim.nodes.length = 1 + SCENARIOS.ddos.attackers ∧
    ∀ n ∈ sim.nodes, n.ntype = NType.attacker → "server" ∈ n.connections := by
  have hc : SimulationFactory.create env "ddos" rng 800 600
      = some (DDoSAttack.initializeSim env
          (AttackSimulation.mkSim .ddos SCENARIOS.ddos rng 800 600)) := rfl
  rw [hc] at h
  obtain rfl : _ = sim := Option.some.inj h
  have base := AttackSimulation.mkSim Scn.ddos SCENARIOS.ddos rng 800 600
  have hn : (DDoSAttack.initializeSim env
        (AttackSimulation.mkSim Scn.ddos SCENARIOS.ddos rng 800 600)).nodes
      = DDoSAttack.serverNode (AttackSimulation.mkSim Scn.ddos SCENARIOS.ddos rng 800 600)
        :: (List.range 30).map
            (DDoSAttack.attackerNode env
              (AttackSimulation.mkSim Scn.ddos SCENARIOS.ddos rng 800 600)) := rfl
  have hmapnil : ∀ (p : Node → Bool), (∀ n' : Node, n'.ntype = NType.attacker → p n' = false) →
      ((List.range 30).map
        (DDoSAttack.attackerNode env
          (AttackSimulation.mkSim Scn.ddos SCENARIOS.ddos rng 800 600))).filter p = [] := by
    intro p hp
    rw [List.filter_eq_nil_iff]
    intro a ha
    rw [List.mem_map] at ha
    obtain ⟨i, _, rfl⟩ := ha
    have hfalse := hp (DDoSAttack.attackerNode env
      (AttackSimulation.mkSim Scn.ddos SCENARIOS.ddos rng 800 600) i) rfl
    simp only [hfalse, Bool.false_eq_true, not_false_eq_true]
  have hmapself : ((List.range 30).map
        (DDoSAttack.attackerNode env
          (AttackSimulation.mkSim Scn.ddos SCENARIOS.ddos rng 800 600))).filter
        (fun n => n.ntype == NType.attacker)
      = (List.range 30).map
          (DDoSAttack.attackerNode env
            (AttackSimulation.mkSim Scn.ddos SCENARIOS.ddos rng 800 600)) := by
    rw [List.filter_eq_self]
    intro a ha
    rw [List.mem_map] at ha
    obtain ⟨i, _, rfl⟩ := ha
    rfl
  refine ⟨?_, ?_, ?_, ?_⟩
  · rw [hn, List.filter_cons_of_pos (by rfl), hmapnil _ (fun n' h' => by rw [h']; rfl)]
    rfl
  · rw [hn, List.filter_cons_of_neg (by simp [DDoSAttack.serverNode]), hmapself,
      List.length_map, List.length_range]
    rfl
  · rw [hn]
    simp [SCENARIOS.ddos]
  · intro n hnmem hattacker
    rw [hn, List.mem_cons] at hnmem
    rcases hnmem with hserver | hmem
    · rw [hserver] at hattacker; cases hattacker
    · rw [List.mem_map] at hmem
      obtain ⟨i, _, rfl⟩ := hmem
      simp [DDoSAttack.attackerNode]

/-- C7 witness: the concrete instance at `envZero`, seed-1 rng. -/
theorem ddos_topology_witness :
    ∃ sim, SimulationFactory.create envZero "ddos" rngOne 800 600 = some sim ∧
      (sim.nodes.filter fun n => n.ntype == NType.server).length = 1 ∧
      (sim.nodes.filter fun n => n.ntype == NType.attacker).length = SCENARIOS.ddos.attackers ∧
      sim.nodes.length = 1 + SCENARIOS.ddos.attackers :=
  ⟨simDdos, rfl, (ddos_topology envZero rngOne simDdos rfl).1,
    (ddos_topology envZero rngOne simDdos rfl).2.1, (ddos_topology envZero rngOne simDdos rfl).2.2.1⟩

/-! ### C3: counter monotonicity infrastructure -/

/-- Pointwise order on the four cumulative counters. -/
def MetricsLE (m n : Metrics) : Prop :=
  m.packetsSent ≤ n.packetsSent ∧ m.packetsReceived ≤ n.packetsReceived ∧
  m.packetsDropped ≤ n.packetsDropped ∧ m.packetsBlocked ≤ n.packetsBlocked

theorem MetricsLE.refl (m : Metrics) : MetricsLE m m :=
  ⟨le_refl _, le_refl _, le_refl _, le_refl _⟩

theorem MetricsLE.trans {a b c : Metrics} (h1 : MetricsLE a b) (h2 : MetricsLE b c) :
    MetricsLE a c :=
  ⟨le_trans h1.1 h2.1, le_trans h1.2.1 h2.2.1, le_trans h1.2.2.1 h2.2.2.1,
    le_trans h1.2.2.2 h2.2.2.2⟩

theorem createPacket_metricsLE (s : AttackSimulation) (src tgt : Node) (t : PType) (v : ℚ) :
    MetricsLE s.metrics (s.createPacket src tgt t v).metrics := by
  refine ⟨?_, le_refl _, le_refl _, le_refl _⟩
  simp [AttackSimulation.createPacket]

theorem ddos_genSlot_metricsLE (env : Env) (server : Node) (attackers : List Node)
    (s : AttackSimulation) :
    MetricsLE s.metrics (DDoSAttack.genSlot env server attackers s).metrics := by
  unfold DDoSAttack.genSlot
  dsimp only
  split
  · split
    · exact ⟨Nat.le_succ _, le_refl _, le_refl _, le_refl _⟩
    · exact MetricsLE.refl _
  · exact MetricsLE.refl _

theorem mitm_genSlot_metricsLE (env : Env) (client1 client2 attacker : Node)
    (s : AttackSimulation) :
    MetricsLE s.metrics (MITMAttack.genSlot env client1 client2 attacker s).metrics := by
  unfold MITMAttack.genSlot
  dsimp only
  split
  · split
    · exact ⟨Nat.le_succ _, le_refl _, le_refl _, le_refl _⟩
    · exact ⟨Nat.le_succ _, le_refl _, le_refl _, le_refl _⟩
  · exact MetricsLE.refl _

theorem firewall_genSlot_metricsLE (env : Env) (fwNode serverNode : Node) (clients : List Node)
    (s : AttackSimulation) :
    MetricsLE s.metrics (FirewallAttack.genSlot env fwNode serverNode clients s).metrics := by
  unfold FirewallAttack.genSlot
  dsimp only
  split
  · split
    · exact ⟨Nat.le_succ _, le_refl _, le_refl _, le_refl _⟩
    · exact MetricsLE.refl _
  · exact MetricsLE.refl _

theorem arp_genSlot_metricsLE (env : Env) (attacker : Node) (clients : List Node)
    (s : AttackSimulation) :
    MetricsLE s.metrics (ARPSpoofAttack.genSlot env attacker clients s).metrics := by
  unfold ARPSpoofAttack.genSlot
  dsimp only
  split
  · split
    · split
      · exact ⟨Nat.le_succ _, le_refl _, le_refl _, le_refl _⟩
      · exact MetricsLE.refl _
    · exact MetricsLE.refl _
  · split
    · split
      · exact ⟨Nat.le_succ _, le_refl _, le_refl _, le_refl _⟩
      · exact MetricsLE.refl _
    · exact MetricsLE.refl _

theorem iterateSlots_metricsLE (f : AttackSimulation → AttackSimulation)
    (hf : ∀ s, MetricsLE s.metrics (f s).metrics) :
    ∀ (n : ℕ) (s : AttackSimulation), MetricsLE s.metrics (iterateSlots f n s).metrics := by
  intro n
  induction n with
  | zero => intro s; exact MetricsLE.refl _
  | succ n ih => intro s; exact MetricsLE.trans (hf s) (ih (f s))

theorem generatePackets_metricsLE (env : Env) (s : AttackSimulation) (intensity : ℚ) :
    MetricsLE s.metrics (AttackSimulation.generatePackets env s intensity).metrics := by
  unfold AttackSimulation.generatePackets
  split
  · unfold DDoSAttack.generatePackets
    split
    · exact iterateSlots_metricsLE _ (ddos_genSlot_metricsLE env _ _) _ _
    · exact MetricsLE.refl _
  · unfold MITMAttack.generatePackets
    split
    · exact iterateSlots_metricsLE _ (mitm_genSlot_metricsLE env _ _ _) _ _
    · exact MetricsLE.refl _
  · unfold FirewallAttack.generatePackets
    split
    · exact iterateSlots_metricsLE _ (firewall_genSlot_metricsLE env _ _ _) _ _
    · exact MetricsLE.refl _
  · unfold ARPSpoofAttack.generatePackets
    split
    · exact iterateSlots_metricsLE _ (arp_genSlot_metricsLE env _ _) _ _
    · exact MetricsLE.refl _

theorem dropScan_dropped_le (env : Env) :
    ∀ (ps : List Packet) (rng : SeededRandom) (d : ℕ),
      d ≤ (DDoSAttack.dropScan env ps rng d).2.2 := by
  intro ps
  induction ps with
  | nil => intro rng d; exact le_refl _
  | cons p ps ih =>
    intro rng d
    unfold DDoSAttack.dropScan
    dsimp only
    split
    · split
      · exact le_trans (Nat.le_succ d) (ih _ (d + 1))
      · exact ih _ d
    · exact ih _ d

theorem updateMetrics_metricsLE (env : Env) (s : AttackSimulation) :
    MetricsLE s.metrics (AttackSimulation.updateMetrics env s).metrics := by
  unfold AttackSimulation.updateMetrics
  split
  · unfold DDoSAttack.updateMetrics
    dsimp only
    split
    · exact ⟨le_refl _, le_refl _, dropScan_dropped_le env _ _ _, le_refl _⟩
    · exact ⟨le_refl _, Nat.le_add_right _ _, le_refl _, le_refl _⟩
  · unfold MITMAttack.updateMetrics
    dsimp only
    exact ⟨le_refl _, Nat.le_add_right _ _, le_refl _, le_refl _⟩
  · unfold FirewallAttack.updateMetrics
    dsimp only
    exact ⟨le_refl _, Nat.le_add_right _ _, le_refl _, le_refl _⟩
  · unfold ARPSpoofAttack.updateMetrics
    dsimp only
    exact ⟨le_refl _, Nat.le_add_right _ _, le_refl _, le_refl _⟩

theorem fireAction_metricsLE (env : Env) (s : AttackSimulation) (a : PendingAction) :
    MetricsLE s.metrics (AttackSimulation.fireAction env s a).metrics := by
  unfold AttackSimulation.fireAction
  dsimp only
  split
  · exact ⟨Nat.le_succ _, le_refl _, le_refl _, le_refl _⟩
  · split
    · split
      · exact ⟨le_refl _, le_refl _, le_refl _, Nat.le_add_right _ _⟩
      · exact ⟨Nat.le_succ _, le_refl _, le_refl _, le_refl _⟩
    · exact ⟨Nat.le_succ _, le_refl _, le_refl _, le_refl _⟩

theorem step_metricsLE (env : Env) (s : AttackSimulation) (e : Event) :
    MetricsLE s.metrics (AttackSimulation.step env s e).metrics := by
  cases e with
  | tick dt sp it =>
    have h1 := generatePackets_metricsLE env
      { s with time := s.time + dt * sp, packets := AttackSimulation.sweepPackets s.packets } it
    have h2 := updateMetrics_metricsLE env
      (AttackSimulation.generatePackets env
        { s with time := s.time + dt * sp, packets := AttackSimulation.sweepPackets s.packets } it)
    exact MetricsLE.trans h1 h2
  | fire =>
    rcases hp : s.pending with _ | ⟨a, rest⟩
    · have hstep : AttackSimulation.step env s .fire = s := by
        unfold AttackSimulation.step
        rw [hp]
      rw [hstep]
      exact MetricsLE.refl _
    · have hstep : AttackSimulation.step env s .fire
          = AttackSimulation.fireAction env { s with pending := rest } a := by
        unfold AttackSimulation.step
        rw [hp]
      rw [hstep]
      exact fireAction_metricsLE env { s with pending := rest } a

theorem run_metricsLE (env : Env) :
    ∀ (events : List Event) (s : AttackSimulation),
      MetricsLE s.metrics (AttackSimulation.run env s events).metrics := by
  intro events
  induction events with
  | nil => intro s; exact MetricsLE.refl _
  | cons e events ih =>
    intro s
    exact MetricsLE.trans (step_metricsLE env s e) (ih _)

/-- C3: across any sequence of events (every `update()` tick and every
deferred-callback firing, in every scenario variant, from any state), the
counters `packetsSent`, `packetsReceived`, `packetsDropped`,
`packetsBlocked` never decrease. -/
theorem counters_monotone (env : Env) (s : AttackSimulation) (events : List Event) :
    s.metrics.packetsSent ≤ (AttackSimulation.run env s events).metrics.packetsSent ∧
    s.metrics.packetsReceived ≤ (AttackSimulation.run env s events).metrics.packetsReceived ∧
    s.metrics.packetsDropped ≤ (AttackSimulation.run env s events).metrics.packetsDropped ∧
    s.metrics.packetsBlocked ≤ (AttackSimulation.run env s events).metrics.packetsBlocked :=
  run_metricsLE env events s

/-! ### Packet-collection membership machinery (C8, C10) -/

theorem Packet.update_ret_true {p : Packet} (h : (Packet.update p).2 = true) :
    p.active = true ∧ (Packet.update p).1.active = true ∧
    (Packet.update p).1.progress = p.progress + p.speed * (1 / 100) ∧
    (Packet.update p).1.progress < 1 ∧ (Packet.update p).1.speed = p.speed := by
  unfold Packet.update at h ⊢
  dsimp only at h ⊢
  by_cases ha : p.active = false
  · rw [if_pos ha] at h
    cases h
  · have ha' : p.active = true := by revert ha; cases p.active <;> simp
    rw [if_neg ha] at h ⊢
    by_cases hge : 1 ≤ p.progress + p.speed * (1 / 100)
    · rw [if_pos hge] at h
      cases h
    · rw [if_neg hge]
      exact ⟨ha', ha', rfl, lt_of_not_le hge, rfl⟩

theorem Packet.update_deactivates {p : Packet} (ha : p.active = true)
    (h : 1 ≤ p.progress + p.speed * (1 / 100)) :
    (Packet.update p).1.active = false ∧ (Packet.update p).2 = false := by
  unfold Packet.update
  dsimp only
  rw [if_neg (by rw [ha]; exact fun hcontra => by cases hcontra), if_pos h]
  exact ⟨rfl, rfl⟩

theorem mem_sweepPackets {ps : List Packet} {p' : Packet}
    (h : p' ∈ AttackSimulation.sweepPackets ps) :
    ∃ p ∈ ps, (Packet.update p).2 = true ∧ (Packet.update p).1 = p' := by
  unfold AttackSimulation.sweepPackets at h
  rw [List.mem_filterMap] at h
  obtain ⟨p, hp, hf⟩ := h
  refine ⟨p, hp, ?_⟩
  by_cases hb : (Packet.update p).2 = true
  · rw [if_pos hb] at hf
    exact ⟨hb, Option.some.inj hf⟩
  · rw [if_neg hb] at hf
    cases hf

theorem sweepPackets_active_progress {ps : List Packet} {p : Packet}
    (h : p ∈ AttackSimulation.sweepPackets ps) : p.active = true ∧ p.progress < 1 := by
  obtain ⟨q, _, hret, heq⟩ := mem_sweepPackets h
  obtain ⟨_, hact, _, hlt, _⟩ := Packet.update_ret_true hret
  rw [heq] at hact hlt
  exact ⟨hact, hlt⟩

theorem createPacket_mem_packets {s : AttackSimulation} {src tgt : Node} {t : PType} {v : ℚ}
    {p : Packet} (h : p ∈ (s.createPacket src tgt t v).packets) :
    p ∈ s.packets ∨ p = s.newPacket src tgt t v := by
  unfold AttackSimulation.createPacket at h
  dsimp only at h
  rw [List.mem_append, List.mem_singleton] at h
  exact h

theorem iterateSlots_preserves (f : AttackSimulation → AttackSimulation)
    (Q : AttackSimulation → Prop) (hf : ∀ s, Q s → Q (f s)) :
    ∀ (n : ℕ) (s : AttackSimulation), Q s → Q (iterateSlots f n s) := by
  intro n
  induction n with
  | zero => intro s hs; exact hs
  | succ n ih => intro s hs; exact ih (f s) (hf s hs)

theorem ddos_genSlot_packetsPred (P : Packet → Prop)
    (hnew : ∀ (s : AttackSimulation) (src tgt : Node) (t : PType) (v : ℚ), 0 < v →
      P (AttackSimulation.newPacket s src tgt t v))
    (env : Env) (server : Node) (attackers : List Node) (s : AttackSimulation)
    (hs : ∀ p ∈ s.packets, P p) :
    ∀ p ∈ (DDoSAttack.genSlot env server attackers s).packets, P p := by
  unfold DDoSAttack.genSlot
  dsimp only
  split
  · split
    · intro p hp
      rcases createPacket_mem_packets hp with hmem | rfl
      · exact hs p hmem
      · exact hnew _ _ _ _ _ (by norm_num)
    · exact fun p hp => hs p hp
  · exact fun p hp => hs p hp

theorem mitm_genSlot_packetsPred (P : Packet → Prop)
    (hnew : ∀ (s : AttackSimulation) (src tgt : Node) (t : PType) (v : ℚ), 0 < v →
      P (AttackSimulation.newPacket s src tgt t v))
    (env : Env) (client1 client2 attacker : Node) (s : AttackSimulation)
    (hs : ∀ p ∈ s.packets, P p) :
    ∀ p ∈ (MITMAttack.genSlot env client1 client2 attacker s).packets, P p := by
  unfold MITMAttack.genSlot
  dsimp only
  split
  · split
    · intro p hp
      rcases createPacket_mem_packets hp with hmem | rfl
      · exact hs p hmem
      · exact hnew _ _ _ _ _ (by norm_num)
    · intro p hp
      rcases createPacket_mem_packets hp with hmem | rfl
      · exact hs p hmem
      · exact hnew _ _ _ _ _ (by norm_num)
  · exact fun p hp => hs p hp

theorem firewall_genSlot_packetsPred (P : Packet → Prop)
    (hnew : ∀ (s : AttackSimulation) (src tgt : Node) (t : PType) (v : ℚ), 0 < v →
      P (AttackSimulation.newPacket s src tgt t v))
    (env : Env) (fwNode serverNode : Node) (clients : List Node) (s : AttackSimulation)
    (hs : ∀ p ∈ s.packets, P p) :
    ∀ p ∈ (FirewallAttack.genSlot env fwNode serverNode clients s).packets, P p := by
  unfold FirewallAttack.genSlot
  dsimp only
  split
  · split
    · intro p hp
      rcases createPacket_mem_packets hp with hmem | rfl
      · exact hs p hmem
      · exact hnew _ _ _ _ _ (by norm_num)
    · exact fun p hp => hs p hp
  · exact fun p hp => hs p hp

theorem arp_genSlot_packetsPred (P : Packet → Prop)
    (hnew : ∀ (s : AttackSimulation) (src tgt : Node) (t : PType) (v : ℚ), 0 < v →
      P (AttackSimulation.newPacket s src tgt t v))
    (env : Env) (attacker : Node) (clients : List Node) (s : AttackSimulation)
    (hs : ∀ p ∈ s.packets, P p) :
    ∀ p ∈ (ARPSpoofAttack.genSlot env attacker clients s).packets, P p := by
  unfold ARPSpoofAttack.genSlot
  dsimp only
  split
  · split
    · split
      · intro p hp
        rcases createPacket_mem_packets hp with hmem | rfl
        · exact hs p hmem
        · exact hnew _ _ _ _ _ (by norm_num)
      · exact fun p hp => hs p hp
    · exact fun p hp => hs p hp
  · split
    · split
      · intro p hp
        rcases createPacket_mem_packets hp with hmem | rfl
        · exact hs p hmem
        · exact hnew _ _ _ _ _ (by norm_num)
      · exact fun p hp => hs p hp
    · exact fun p hp => hs p hp

theorem generatePackets_packetsPred (P : Packet → Prop)
    (hnew : ∀ (s : AttackSimulation) (src tgt : Node) (t : PType) (v : ℚ), 0 < v →
      P (AttackSimulation.newPacket s src tgt t v))
    (env : Env) (s : AttackSimulation) (intensity : ℚ)
    (hs : ∀ p ∈ s.packets, P p) :
    ∀ p ∈ (AttackSimulation.generatePackets env s intensity).packets, P p := by
  unfold AttackSimulation.generatePackets
  split
  · unfold DDoSAttack.generatePackets
    split
    · exact iterateSlots_preserves _ (fun s => ∀ p ∈ s.packets, P p)
        (fun s hs => ddos_genSlot_packetsPred P hnew env _ _ s hs) _ s hs
    · exact fun p hp => hs p hp
  · unfold MITMAttack.generatePackets
    split
    · exact iterateSlots_preserves _ (fun s => ∀ p ∈ s.packets, P p)
        (fun s hs => mitm_genSlot_packetsPred P hnew env _ _ _ s hs) _ s hs
    · exact fun p hp => hs p hp
  · unfold FirewallAttack.generatePackets
    split
    · exact iterateSlots_preserves _ (fun s => ∀ p ∈ s.packets, P p)
        (fun s hs => firewall_genSlot_packetsPred P hnew env _ _ _ s hs) _ s hs
    · exact fun p hp => hs p hp
  · unfold ARPSpoofAttack.generatePackets
    split
    · exact iterateSlots_preserves _ (fun s => ∀ p ∈ s.packets, P p)
        (fun s hs => arp_genSlot_packetsPred P hnew env _ _ s hs) _ s hs
    · exact fun p hp => hs p hp

theorem dropScan_mem (env : Env) :
    ∀ (ps : List Packet) (rng : SeededRandom) (d : ℕ) (p : Packet),
      p ∈ (DDoSAttack.dropScan env ps rng d).1 →
      ∃ q ∈ ps, p = q ∨ p = { q with active := false } := by
  intro ps
  induction ps with
  | nil => intro rng d p hp; cases hp
  | cons q ps ih =>
    intro rng d p hp
    unfold DDoSAttack.dropScan at hp
    dsimp only at hp
    split at hp
    · split at hp
      · rcases List.mem_cons.mp hp with heq | hmem
        · exact ⟨q, List.mem_cons_self _ _, Or.inr heq⟩
        · obtain ⟨q', hq', hor⟩ := ih _ _ p hmem
          exact ⟨q', List.mem_cons_of_mem _ hq', hor⟩
      · rcases List.mem_cons.mp hp with heq | hmem
        · exact ⟨q, List.mem_cons_self _ _, Or.inl heq⟩
        · obtain ⟨q', hq', hor⟩ := ih _ _ p hmem
          exact ⟨q', List.mem_cons_of_mem _ hq', hor⟩
    · rcases List.mem_cons.mp hp with heq | hmem
      · exact ⟨q, List.mem_cons_self _ _, Or.inl heq⟩
      · obtain ⟨q', hq', hor⟩ := ih _ _ p hmem
        exact ⟨q', List.mem_cons_of_mem _ hq', hor⟩

theorem updateMetrics_packetsPred (P : Packet → Prop)
    (hdeact : ∀ p, P p → P { p with active := false })
    (env : Env) (s : AttackSimulation)
    (hs : ∀ p ∈ s.packets, P p) :
    ∀ p ∈ (AttackSimulation.updateMetrics env s).packets, P p := by
  unfold AttackSimulation.updateMetrics
  split
  · unfold DDoSAttack.updateMetrics
    dsimp only
    split
    · intro p hp
      obtain ⟨q, hq, hor⟩ := dropScan_mem env _ _ _ p hp
      rcases hor with heq | heq
      · rw [heq]; exact hs q hq
      · rw [heq]; exact hdeact q (hs q hq)
    · exact fun p hp => hs p hp
  · exact fun p hp => hs p hp
  · exact fun p hp => hs p hp
  · exact fun p hp => hs p hp

/-! ### C10 -/

/-- C10: in every scenario variant and from every state, immediately after
a call to `AttackSimulation.update` no packet in the live collection has
`progress ≥ 1`; moreover the filter pass itself (which runs before
`generatePackets` and `updateMetrics` within the same call) already leaves
only active packets with `progress < 1`, so a packet whose progress
reaches 1 during a tick is deactivated and removed within that same
call's filter pass. -/
theorem no_arrived_packet_in_live_set (env : Env) (s : AttackSimulation) (dt sp it : ℚ) :
    (∀ p ∈ AttackSimulation.sweepPackets s.packets, p.active = true ∧ p.progress < 1) ∧
    (∀ p ∈ (AttackSimulation.update env s dt sp it).packets, p.progress < 1) := by
  constructor
  · exact fun p hp => sweepPackets_active_progress hp
  · have hsweep : ∀ p ∈ (AttackSimulation.sweepPackets s.packets), p.progress < 1 :=
      fun p hp => (sweepPackets_active_progress hp).2
    have hgen := generatePackets_packetsPred (fun p => p.progress < 1)
      (fun s src tgt t v _ => by norm_num [AttackSimulation.newPacket])
      env { s with time := s.time + dt * sp, packets := AttackSimulation.sweepPackets s.packets }
      it hsweep
    exact updateMetrics_packetsPred (fun p => p.progress < 1)
      (fun p hp => hp) env _ hgen

/-- A concrete in-flight packet (the one MITM creates on its first tick
under `envZero`). -/
def mitmPacket0 : Packet :=
  { id := 0, srcX := 200, srcY := 300, tgtX := 400, tgtY := 300, ptype := .normal,
    speed := 3 / 2, progress := 0, x := 200, y := 300, active := true, trail := [] }

/-- A concrete mid-flight packet used to exercise the sweep. -/
def midPacket : Packet :=
  { id := 7, srcX := 0, srcY := 0, tgtX := 100, tgtY := 0, ptype := .attack,
    speed := 2, progress := 1 / 2, x := 50, y := 0, active := true, trail := [] }

set_option maxRecDepth 40000 in
/-- C10 witness: concrete instances — the packet surviving a sweep of
`[midPacket]` is active with progress < 1, and the packet in the MITM
simulation's live set after one concrete `update` has progress < 1. -/
theorem no_arrived_packet_in_live_set_witness :
    ((Packet.update midPacket).1.active = true ∧ (Packet.update midPacket).1.progress < 1) ∧
    mitmPacket0.progress < 1 :=
  ⟨(no_arrived_packet_in_live_set envZero { simMitm with packets := [midPacket] } 16 1 50).1
      (Packet.update midPacket).1 (by with_unfolding_all decide),
   (no_arrived_packet_in_live_set envZero simMitm 16 1 50).2 mitmPacket0
      (by with_unfolding_all decide)⟩

/-! ### C8: packet lifecycle invariant -/

/-- The per-packet invariant: an active packet has progress in [0,1), and
every simulation-created packet has positive speed. -/
def packetOK (p : Packet) : Prop :=
  (p.active = true → 0 ≤ p.progress ∧ p.progress < 1) ∧ 0 < p.speed

/-- Scheduled callbacks only ever relay with positive speed. -/
def pendingOK : PendingAction → Prop
  | .relay _ _ _ speed => 0 < speed
  | .fwDecide _ _ _ _ _ => True

/-- The reachable-state invariant backing C8. -/
def simOK (s : AttackSimulation) : Prop :=
  (∀ p ∈ s.packets, packetOK p) ∧ (∀ a ∈ s.pending, pendingOK a)

theorem newPacket_packetOK (s : AttackSimulation) (src tgt : Node) (t : PType) {v : ℚ}
    (hv : 0 < v) : packetOK (s.newPacket src tgt t v) :=
  ⟨fun _ => ⟨le_refl 0, show (0 : ℚ) < 1 by norm_num⟩, hv⟩

theorem sweep_packetOK {ps : List Packet} (h : ∀ p ∈ ps, packetOK p) :
    ∀ p ∈ AttackSimulation.sweepPackets ps, packetOK p := by
  intro p hp
  obtain ⟨q, hq, hret, heq⟩ := mem_sweepPackets hp
  obtain ⟨hqa, hact, hprog, hlt, hspeed⟩ := Packet.update_ret_true hret
  obtain ⟨hbounds, hqspeed⟩ := h q hq
  rw [heq] at hact hprog hlt hspeed
  refine ⟨fun _ => ⟨?_, hlt⟩, by rw [hspeed]; exact hqspeed⟩
  rw [hprog]
  have h0 : 0 ≤ q.progress := (hbounds hqa).1
  have : 0 < q.speed * (1 / 100) := by positivity
  linarith

theorem ddos_genSlot_pendingPred (env : Env) (server : Node) (attackers : List Node)
    (s : AttackSimulation) (hs : ∀ a ∈ s.pending, pendingOK a) :
    ∀ a ∈ (DDoSAttack.genSlot env server attackers s).pending, pendingOK a := by
  unfold DDoSAttack.genSlot
  dsimp only
  split
  · split
    · exact fun a ha => hs a ha
    · exact fun a ha => hs a ha
  · exact fun a ha => hs a ha

theorem mitm_genSlot_pendingPred (env : Env) (client1 client2 attacker : Node)
    (s : AttackSimulation) (hs : ∀ a ∈ s.pending, pendingOK a) :
    ∀ a ∈ (MITMAttack.genSlot env client1 client2 attacker s).pending, pendingOK a := by
  unfold MITMAttack.genSlot
  dsimp only
  split
  · split
    · intro a ha
      rw [List.mem_append, List.mem_singleton] at ha
      rcases ha with ha | rfl
      · exact hs a ha
      · show (0 : ℚ) < 3 / 2
        norm_num
    · intro a ha
      rw [List.mem_append, List.mem_singleton] at ha
      rcases ha with ha | rfl
      · exact hs a ha
      · show (0 : ℚ) < 3 / 2
        norm_num
  · exact fun a ha => hs a ha

theorem firewall_genSlot_pendingPred (env : Env) (fwNode serverNode : Node)
    (clients : List Node) (s : AttackSimulation) (hs : ∀ a ∈ s.pending, pendingOK a) :
    ∀ a ∈ (FirewallAttack.genSlot env fwNode serverNode clients s).pending, pendingOK a := by
  unfold FirewallAttack.genSlot
  dsimp only
  split
  · split
    · intro a ha
      rw [List.mem_append, List.mem_singleton] at ha
      rcases ha with ha | rfl
      · exact hs a ha
      · trivial
    · exact fun a ha => hs a ha
  · exact fun a ha => hs a ha

theorem arp_genSlot_pendingPred (env : Env) (attacker : Node) (clients : List Node)
    (s : AttackSimulation) (hs : ∀ a ∈ s.pending, pendingOK a) :
    ∀ a ∈ (ARPSpoofAttack.genSlot env attacker clients s).pending, pendingOK a := by
  unfold ARPSpoofAttack.genSlot
  dsimp only
  split
  · split
    · split
      · intro a ha
        rw [List.mem_append, List.mem_singleton] at ha
        rcases ha with ha | rfl
        · exact hs a ha
        · show (0 : ℚ) < 1
          norm_num
      · exact fun a ha => hs a ha
    · exact fun a ha => hs a ha
  · split
    · split
      · exact fun a ha => hs a ha
      · exact fun a ha => hs a ha
    · exact fun a ha => hs a ha

theorem generatePackets_pendingPred (env : Env) (s : AttackSimulation) (intensity : ℚ)
    (hs : ∀ a ∈ s.pending, pendingOK a) :
    ∀ a ∈ (AttackSimulation.generatePackets env s intensity).pending, pendingOK a := by
  unfold AttackSimulation.generatePackets
  split
  · unfold DDoSAttack.generatePackets
    split
    · exact iterateSlots_preserves _ (fun s => ∀ a ∈ s.pending, pendingOK a)
        (fun s hs => ddos_genSlot_pendingPred env _ _ s hs) _ s hs
    · exact fun a ha => hs a ha
  · unfold MITMAttack.generatePackets
    split
    · exact iterateSlots_preserves _ (fun s => ∀ a ∈ s.pending, pendingOK a)
        (fun s hs => mitm_genSlot_pendingPred env _ _ _ s hs) _ s hs
    · exact fun a ha => hs a ha
  · unfold FirewallAttack.generatePackets
    split
    · exact iterateSlots_preserves _ (fun s => ∀ a ∈ s.pending, pendingOK a)
        (fun s hs => firewall_genSlot_pendingPred env _ _ _ s hs) _ s hs
    · exact fun a ha => hs a ha
  · unfold ARPSpoofAttack.generatePackets
    split
    · exact iterateSlots_preserves _ (fun s => ∀ a ∈ s.pending, pendingOK a)
        (fun s hs => arp_genSlot_pendingPred env _ _ s hs) _ s hs
    · exact fun a ha => hs a ha

theorem updateMetrics_pending (env : Env) (s : AttackSimulation) :
    (AttackSimulation.updateMetrics env s).pending = s.pending := by
  unfold AttackSimulation.updateMetrics
  split
  · unfold DDoSAttack.updateMetrics
    dsimp only
    split
    · rfl
    · rfl
  · rfl
  · rfl
  · rfl

theorem fireAction_simOK (env : Env) (s : AttackSimulation) (a : PendingAction)
    (hs : simOK s) (ha : pendingOK a) : simOK (AttackSimulation.fireAction env s a) := by
  obtain ⟨hpk, hpd⟩ := hs
  unfold AttackSimulation.fireAction
  cases a with
  | relay src tgt t v =>
    refine ⟨?_, fun b hb => hpd b hb⟩
    intro p hp
    rcases createPacket_mem_packets hp with hmem | heq
    · exact hpk p hmem
    · rw [heq]
      exact newPacket_packetOK _ _ _ _ ha
  | fwDecide pid isAttack fwNode serverNode t =>
    dsimp only
    split
    · split
      · refine ⟨?_, fun b hb => hpd b hb⟩
        intro p hp
        dsimp only at hp
        rw [List.mem_map] at hp
        obtain ⟨q, hq, heq⟩ := hp
        by_cases hid : (q.id == pid) = true
        · rw [if_pos hid] at heq
          rw [← heq]
          exact ⟨(fun hc => absurd hc (by simp)), (hpk q hq).2⟩
        · rw [if_neg hid] at heq
          rw [← heq]
          exact hpk q hq
      · refine ⟨?_, fun b hb => hpd b hb⟩
        intro p hp
        rcases createPacket_mem_packets hp with hmem | heq
        · exact hpk p hmem
        · rw [heq]
          exact newPacket_packetOK _ _ _ _ (by norm_num)
    · refine ⟨?_, fun b hb => hpd b hb⟩
      intro p hp
      rcases createPacket_mem_packets hp with hmem | heq
      · exact hpk p hmem
      · rw [heq]
        exact newPacket_packetOK _ _ _ _ (by norm_num)

theorem step_simOK (env : Env) (s : AttackSimulation) (e : Event) (hs : simOK s) :
    simOK (AttackSimulation.step env s e) := by
  cases e with
  | tick dt sp it =>
    show simOK (AttackSimulation.update env s dt sp it)
    have h1 : ∀ p ∈ (AttackSimulation.sweepPackets s.packets), packetOK p :=
      sweep_packetOK hs.1
    have hmid : simOK { s with time := s.time + dt * sp, packets := AttackSimulation.sweepPackets s.packets } :=
      ⟨h1, hs.2⟩
    have h2 : simOK (AttackSimulation.generatePackets env { s with time := s.time + dt * sp, packets := AttackSimulation.sweepPackets s.packets } it) :=
      ⟨generatePackets_packetsPred packetOK
          (fun s src tgt t v hv => newPacket_packetOK s src tgt t hv) env _ it hmid.1,
        generatePackets_pendingPred env _ it hmid.2⟩
    refine ⟨?_, ?_⟩
    · exact updateMetrics_packetsPred packetOK
        (fun p hp => ⟨(fun hc => absurd hc (by simp)), hp.2⟩) env _ h2.1
    · show ∀ a ∈ (AttackSimulation.updateMetrics env _).pending, pendingOK a
      rw [updateMetrics_pending]
      exact h2.2
  | fire =>
    rcases hp : s.pending with _ | ⟨a, rest⟩
    · have hstep : AttackSimulation.step env s .fire = s := by
        unfold AttackSimulation.step
        rw [hp]
      rw [hstep]
      exact hs
    · have hstep : AttackSimulation.step env s .fire
          = AttackSimulation.fireAction env { s with pending := rest } a := by
        unfold AttackSimulation.step
        rw [hp]
      rw [hstep]
      refine fireAction_simOK env _ a ⟨hs.1, ?_⟩ ?_
      · intro b hb
        exact hs.2 b (by rw [hp]; exact List.mem_cons_of_mem _ hb)
      · exact hs.2 a (by rw [hp]; exact List.mem_cons_self _ _)

theorem run_simOK (env : Env) :
    ∀ (events : List Event) (s : AttackSimulation), simOK s →
      simOK (AttackSimulation.run env s events) := by
  intro events
  induction events with
  | nil => intro s hs; exact hs
  | cons e events ih => intro s hs; exact ih _ (step_simOK env s e hs)

theorem FirewallAttack.foldl_initNode_packets (env : Env) (total : ℕ) :
    ∀ (l : List ℕ) (s : AttackSimulation),
      (l.foldl (FirewallAttack.initNode env total) s).packets = s.packets := by
  intro l
  induction l with
  | nil => intro s; rfl
  | cons i l ih => intro s; rw [List.foldl_cons, ih]; rfl

theorem FirewallAttack.foldl_initNode_pending (env : Env) (total : ℕ) :
    ∀ (l : List ℕ) (s : AttackSimulation),
      (l.foldl (FirewallAttack.initNode env total) s).pending = s.pending := by
  intro l
  induction l with
  | nil => intro s; rfl
  | cons i l ih => intro s; rw [List.foldl_cons, ih]; rfl

theorem FirewallAttack.initializeSim_packets (env : Env) (s : AttackSimulation) :
    (FirewallAttack.initializeSim env s).packets = s.packets := by
  unfold FirewallAttack.initializeSim
  dsimp only
  rw [FirewallAttack.foldl_initNode_packets]

theorem FirewallAttack.initializeSim_pending (env : Env) (s : AttackSimulation) :
    (FirewallAttack.initializeSim env s).pending = s.pending := by
  unfold FirewallAttack.initializeSim
  dsimp only
  rw [FirewallAttack.foldl_initNode_pending]

theorem create_fresh (env : Env) (name : String) (rng : SeededRandom) (w h : ℚ)
    (sim : AttackSimulation) (hsim : SimulationFactory.create env name rng w h = some sim) :
    sim.packets = [] ∧ sim.pending = [] := by
  unfold SimulationFactory.create at hsim
  split at hsim
  · cases hsim; exact ⟨rfl, rfl⟩
  · cases hsim; exact ⟨rfl, rfl⟩
  · cases hsim
    exact ⟨FirewallAttack.initializeSim_packets env _, FirewallAttack.initializeSim_pending env _⟩
  · cases hsim; exact ⟨rfl, rfl⟩
  · split at hsim
    · cases hsim; exact ⟨rfl, rfl⟩
    · cases hsim

theorem create_simOK (env : Env) (name : String) (rng : SeededRandom) (w h : ℚ)
    (sim : AttackSimulation) (hsim : SimulationFactory.create env name rng w h = some sim) :
    simOK sim := by
  obtain ⟨h1, h2⟩ := create_fresh env name rng w h sim hsim
  constructor
  · rw [h1]; intro p hp; cases hp
  · rw [h2]; intro a ha; cases ha

/-- C8: (i) while a packet is active with positive speed, each `update()`
strictly increases `progress`; (ii) once `progress` reaches or exceeds 1
on an update, the packet deactivates and its `update()` returns false, so
the filter sweep removes it; (iii) the sweep retains only active packets;
(iv) in every factory-created simulation, after any event sequence, every
active packet in the live collection has `progress ∈ [0,1)` and every
packet has positive speed. -/
theorem packet_progress_invariants :
    (∀ p : Packet, p.active = true → 0 < p.speed →
      p.progress < (Packet.update p).1.progress) ∧
    (∀ p : Packet, p.active = true → 1 ≤ p.progress + p.speed * (1 / 100) →
      (Packet.update p).1.active = false ∧ (Packet.update p).2 = false) ∧
    (∀ (ps : List Packet) (p : Packet), p ∈ AttackSimulation.sweepPackets ps →
      p.active = true) ∧
    (∀ (env : Env) (name : String) (rng : SeededRandom) (w h : ℚ)
      (sim : AttackSimulation) (events : List Event),
      SimulationFactory.create env name rng w h = some sim →
      ∀ p ∈ (AttackSimulation.run env sim events).packets,
        (p.active = true → 0 ≤ p.progress ∧ p.progress < 1) ∧ 0 < p.speed) := by
  refine ⟨?_, ?_, ?_, ?_⟩
  · intro p ha hv
    unfold Packet.update
    dsimp only
    rw [if_neg (by rw [ha]; exact fun hc => by cases hc)]
    by_cases hge : 1 ≤ p.progress + p.speed * (1 / 100)
    · rw [if_pos hge]
      show p.progress < p.progress + p.speed * (1 / 100)
      linarith
    · rw [if_neg hge]
      show p.progress < p.progress + p.speed * (1 / 100)
      linarith
  · intro p ha hge
    exact Packet.update_deactivates ha hge
  · intro ps p hp
    exact (sweepPackets_active_progress hp).1
  · intro env name rng w h sim events hsim p hp
    exact (run_simOK env events sim (create_simOK env name rng w h sim hsim)).1 p hp

/-- A concrete packet one update step away from arrival. -/
def latePacket : Packet :=
  { id := 3, srcX := 0, srcY := 0, tgtX := 100, tgtY := 0, ptype := .attack,
    speed := 2, progress := 99 / 100, x := 99, y := 0, active := true, trail := [] }

set_option maxRecDepth 40000 in
/-- C8 witness: each part applied at a concrete input — `midPacket`
(progress strictly increases), `latePacket` (deactivation at arrival), a
swept singleton list, and the packet live in the MITM simulation after
one concrete update. -/
theorem packet_progress_invariants_witness :
    midPacket.progress < (Packet.update midPacket).1.progress ∧
    ((Packet.update latePacket).1.active = false ∧ (Packet.update latePacket).2 = false) ∧
    (Packet.update midPacket).1.active = true ∧
    ((mitmPacket0.active = true → 0 ≤ mitmPacket0.progress ∧ mitmPacket0.progress < 1) ∧
      0 < mitmPacket0.speed) :=
  ⟨packet_progress_invariants.1 midPacket (by with_unfolding_all rfl) (by norm_num [midPacket]),
   packet_progress_invariants.2.1 latePacket (by with_unfolding_all rfl)
     (by with_unfolding_all decide),
   packet_progress_invariants.2.2.1 [midPacket] (Packet.update midPacket).1
     (by with_unfolding_all decide),
   packet_progress_invariants.2.2.2 envZero "mitm" rngOne 800 600 simMitm
     [Event.tick 16 1 50] rfl mitmPacket0 (by with_unfolding_all decide)⟩

/-! ### C1: determinism and the timer schedule -/

theorem ddos_genSlot_scn_pending (env : Env) (server : Node) (attackers : List Node)
    (s : AttackSimulation) :
    (DDoSAttack.genSlot env server attackers s).scn = s.scn ∧
    (DDoSAttack.genSlot env server attackers s).pending = s.pending := by
  unfold DDoSAttack.genSlot
  dsimp only
  split
  · split
    · exact ⟨rfl, rfl⟩
    · exact ⟨rfl, rfl⟩
  · exact ⟨rfl, rfl⟩

theorem generatePackets_scn_pending_of_ddos (env : Env) (s : AttackSimulation) (it : ℚ)
    (h : s.scn = Scn.ddos) :
    (AttackSimulation.generatePackets env s it).scn = Scn.ddos ∧
    (AttackSimulation.generatePackets env s it).pending = s.pending := by
  unfold AttackSimulation.generatePackets
  split
  · unfold DDoSAttack.generatePackets
    split
    · refine iterateSlots_preserves _
        (fun t => t.scn = Scn.ddos ∧ t.pending = s.pending) ?_ _ s ⟨h, rfl⟩
      intro t ht
      obtain ⟨h1, h2⟩ := ddos_genSlot_scn_pending env _ _ t
      exact ⟨by rw [h1]; exact ht.1, by rw [h2]; exact ht.2⟩
    · exact ⟨h, rfl⟩
  · rename_i heq
    rw [h] at heq
    cases heq
  · rename_i heq
    rw [h] at heq
    cases heq
  · rename_i heq
    rw [h] at heq
    cases heq

theorem updateMetrics_scn_pending_of_ddos (env : Env) (s : AttackSimulation)
    (h : s.scn = Scn.ddos) :
    (AttackSimulation.updateMetrics env s).scn = Scn.ddos ∧
    (AttackSimulation.updateMetrics env s).pending = s.pending := by
  unfold AttackSimulation.updateMetrics
  split
  · unfold DDoSAttack.updateMetrics
    dsimp only
    split
    · exact ⟨h, rfl⟩
    · exact ⟨h, rfl⟩
  · rename_i heq
    rw [h] at heq
    cases heq
  · rename_i heq
    rw [h] at heq
    cases heq
  · rename_i heq
    rw [h] at heq
    cases heq

theorem ddos_tick_inv (env : Env) (s : AttackSimulation) (dt sp it : ℚ)
    (hscn : s.scn = Scn.ddos) (hpend : s.pending = []) :
    (AttackSimulation.update env s dt sp it).scn = Scn.ddos ∧
    (AttackSimulation.update env s dt sp it).pending = [] := by
  have h1 : ({ s with time := s.time + dt * sp, packets := AttackSimulation.sweepPackets s.packets } : AttackSimulation).scn = Scn.ddos := hscn
  obtain ⟨h2, h3⟩ := generatePackets_scn_pending_of_ddos env
    { s with time := s.time + dt * sp, packets := AttackSimulation.sweepPackets s.packets } it h1
  obtain ⟨h4, h5⟩ := updateMetrics_scn_pending_of_ddos env _ h2
  constructor
  · exact h4
  · show (AttackSimulation.updateMetrics env _).pending = []
    rw [h5, h3]
    exact hpend

/-- The event sequence a list of tick-argument triples denotes. -/
def tickEventsOf (ts : List (ℚ × ℚ × ℚ)) : List Event :=
  ts.map fun t => Event.tick t.1 t.2.1 t.2.2

theorem ddos_run_ticks_only (env : Env) :
    ∀ (evts : List Event) (s : AttackSimulation), s.scn = Scn.ddos → s.pending = [] →
      AttackSimulation.run env s evts
        = AttackSimulation.run env s (tickEventsOf (ticksOf evts)) := by
  intro evts
  induction evts with
  | nil => intro s _ _; rfl
  | cons e rest ih =>
    intro s hscn hpend
    cases e with
    | tick a b c =>
      have hinv := ddos_tick_inv env s a b c hscn hpend
      show AttackSimulation.run env (AttackSimulation.step env s (.tick a b c)) rest = _
      have hts : ticksOf (Event.tick a b c :: rest) = (a, b, c) :: ticksOf rest := rfl
      rw [hts]
      show _ = AttackSimulation.run env (AttackSimulation.step env s (.tick a b c))
        (tickEventsOf (ticksOf rest))
      exact ih _ hinv.1 hinv.2
    | fire =>
      have hstep : AttackSimulation.step env s .fire = s := by
        unfold AttackSimulation.step
        rw [hpend]
      show AttackSimulation.run env (AttackSimulation.step env s .fire) rest = _
      rw [hstep]
      have hts : ticksOf (Event.fire :: rest) = ticksOf rest := rfl
      rw [hts]
      exact ih s hscn hpend

/-- C1 (amended): two simulations of the same scenario constructed with
the same seed produce identical node positions, packet trajectories and
metrics after every event, provided the deferred `setTimeout` callbacks
fire identically interleaved with the `update()` calls in both runs (the
full event sequences coincide); for the DDoS scenario, which schedules no
deferred callbacks, identical `(deltaTime, speed, intensity)` tick
sequences alone suffice. -/
theorem determinism_same_timer_schedule :
    (∀ (env : Env) (name : String) (rng : SeededRandom) (w h : ℚ)
      (s₁ s₂ : AttackSimulation) (events : List Event),
      SimulationFactory.create env name rng w h = some s₁ →
      SimulationFactory.create env name rng w h = some s₂ →
      AttackSimulation.run env s₁ events = AttackSimulation.run env s₂ events) ∧
    (∀ (env : Env) (rng : SeededRandom) (w h : ℚ) (sim : AttackSimulation)
      (evts₁ evts₂ : List Event),
      SimulationFactory.create env "ddos" rng w h = some sim →
      ticksOf evts₁ = ticksOf evts₂ →
      AttackSimulation.run env sim evts₁ = AttackSimulation.run env sim evts₂) := by
  constructor
  · intro env name rng w h s₁ s₂ events h1 h2
    obtain rfl : s₁ = s₂ := Option.some.inj (h1.symm.trans h2)
    rfl
  · intro env rng w h sim evts₁ evts₂ hsim hticks
    have hc : SimulationFactory.create env "ddos" rng w h
        = some (DDoSAttack.initializeSim env
            (AttackSimulation.mkSim .ddos SCENARIOS.ddos rng w h)) := rfl
    have heq : DDoSAttack.initializeSim env
        (AttackSimulation.mkSim .ddos SCENARIOS.ddos rng w h) = sim :=
      Option.some.inj (hc.symm.trans hsim)
    have hscn : sim.scn = Scn.ddos := by rw [← heq]; rfl
    have hpend : sim.pending = [] := (create_fresh env "ddos" rng w h sim hsim).2
    rw [ddos_run_ticks_only env evts₁ sim hscn hpend,
      ddos_run_ticks_only env evts₂ sim hscn hpend, hticks]

set_option maxRecDepth 40000 in
/-- C1 witness: part one applied to the MITM scenario at a concrete seed
and tick, part two applied to the DDoS scenario with a spurious `fire`
event inserted in one of the two runs. -/
theorem determinism_same_timer_schedule_witness :
    (AttackSimulation.run envZero simMitm [Event.tick 16 1 50]
      = AttackSimulation.run envZero simMitm [Event.tick 16 1 50]) ∧
    (AttackSimulation.run envZero simDdos [Event.tick 16 1 50, Event.fire]
      = AttackSimulation.run envZero simDdos [Event.tick 16 1 50]) :=
  ⟨determinism_same_timer_schedule.1 envZero "mitm" rngOne 800 600 simMitm simMitm
      [Event.tick 16 1 50] rfl rfl,
   determinism_same_timer_schedule.2 envZero rngOne 800 600 simDdos
      [Event.tick 16 1 50, Event.fire] [Event.tick 16 1 50] rfl (by with_unfolding_all rfl)⟩

/-- The two event sequences of the C1 counterexample: identical tick
subsequences, but in the first run the relay callback scheduled on the
first tick fires between the two ticks. -/
def cexEventsA : List Event := [Event.tick 16 1 50, Event.fire, Event.tick 16 1 50]

/-- Second run of the C1 counterexample: the relay has not fired yet. -/
def cexEventsB : List Event := [Event.tick 16 1 50, Event.tick 16 1 50]

set_option maxRecDepth 40000 in
/-- C1 counterexample: a MITM simulation with seed 1, fed the identical
tick sequence `[(16,1,50), (16,1,50)]` in both runs, reports different
`packetsSent` after the second tick depending on whether the deferred
relay callback fired between the ticks — so identical
`(deltaTime, speed, intensity)` sequences alone do not guarantee identical
metrics. -/
theorem tick_sequence_determinism_cex :
    ticksOf cexEventsA = ticksOf cexEventsB ∧
    SimulationFactory.create envZero "mitm" rngOne 800 600 = some simMitm ∧
    (AttackSimulation.run envZero simMitm cexEventsA).metrics.packetsSent
      ≠ (AttackSimulation.run envZero simMitm cexEventsB).metrics.packetsSent := by
  refine ⟨by with_unfolding_all rfl, by with_unfolding_all rfl, by with_unfolding_all decide⟩

/-! ### C2: an arrived packet is never counted -/

/-- One generating tick followed by 50 idle ticks, long enough for the
single created packet (speed 2) to arrive. -/
def ddosArrivalEvents : List Event :=
  Event.tick 16 1 50 :: List.replicate 50 (Event.tick 16 1 0)

set_option maxRecDepth 200000 in
/-- C2 (code-bug evaluation): in the DDoS scenario under `envZero` with
seed 1, exactly one packet is ever created; after it arrives (progress
reaches 1) the live collection is empty, yet `packetsReceived`,
`packetsDropped` and `packetsBlocked` all remain 0 — the arrived packet is
in none of the claim's four states.  The filter pass of `update()` removes
arrived packets before `updateMetrics()` scans the live list for
`!active && progress >= 1`, so the receive-counting branches of every
scenario are dead code. -/
theorem arrived_packet_uncounted :
    (AttackSimulation.run envZero simDdos ddosArrivalEvents).metrics.packetsSent = 1 ∧
    (AttackSimulation.run envZero simDdos ddosArrivalEvents).packets = [] ∧
    (AttackSimulation.run envZero simDdos ddosArrivalEvents).metrics.packetsReceived = 0 ∧
    (AttackSimulation.run envZero simDdos ddosArrivalEvents).metrics.packetsDropped = 0 ∧
    (AttackSimulation.run envZero simDdos ddosArrivalEvents).metrics.packetsBlocked = 0 := by
  with_unfolding_all decide

/-! ### C9: per-slot behaviour and expected packet count -/

/-- Number of loop iterations (eligible slots) of
`DDoSAttack.generatePackets` at a given intensity. -/
def ddosSlots (intensity : ℚ) : ℕ :=
  loopCount (packetsThisFrame SCENARIOS.ddos intensity)

/-- All boolean outcome vectors for `n` independent coins. -/
def coinOutcomes : ℕ → List (List Bool)
  | 0 => [[]]
  | n + 1 => (coinOutcomes n).flatMap fun l => [true :: l, false :: l]

/-- Number of successes in one outcome vector. -/
def coinCount (l : List Bool) : ℕ :=
  (l.filter fun b => b).length

/-- Expected number of successes of `n` independent fair coins: the
average of `coinCount` over all `2 ^ n` equally weighted outcomes. -/
def coinExpectation (n : ℕ) : ℚ :=
  ((coinOutcomes n).map fun l => (coinCount l : ℚ)).sum / 2 ^ n

theorem coinCount_cons_true (l : List Bool) : coinCount (true :: l) = coinCount l + 1 := by
  simp [coinCount, List.filter]

theorem coinCount_cons_false (l : List Bool) : coinCount (false :: l) = coinCount l := by
  simp [coinCount, List.filter]

theorem sum_map_bind_pair (f : List Bool → ℚ) :
    ∀ L : List (List Bool),
      ((L.flatMap fun l => [true :: l, false :: l]).map f).sum
        = (L.map fun l => f (true :: l) + f (false :: l)).sum := by
  intro L
  induction L with
  | nil => rfl
  | cons l L ih =>
    rw [List.flatMap_cons, List.map_append, List.sum_append, ih, List.map_cons, List.sum_cons]
    simp [add_assoc]

theorem coinOutcomes_length : ∀ n : ℕ, (coinOutcomes n).length = 2 ^ n := by
  have aux : ∀ L : List (List Bool),
      (L.flatMap fun l => [true :: l, false :: l]).length = 2 * L.length := by
    intro L
    induction L with
    | nil => rfl
    | cons l L ih =>
      rw [List.flatMap_cons, List.length_append, ih, List.length_cons]
      simp
      ring
  intro n
  induction n with
  | zero => rfl
  | succ n ih =>
    show (coinOutcomes (n + 1)).length = 2 ^ (n + 1)
    unfold coinOutcomes
    rw [aux, ih, pow_succ]
    ring

theorem coinSum_succ (n : ℕ) :
    ((coinOutcomes (n + 1)).map fun l => (coinCount l : ℚ)).sum
      = 2 ^ n + 2 * ((coinOutcomes n).map fun l => (coinCount l : ℚ)).sum := by
  have aux : ∀ L : List (List Bool),
      (L.map fun l => ((coinCount (true :: l) : ℚ)) + coinCount (false :: l)).sum
        = L.length + 2 * (L.map fun l => (coinCount l : ℚ)).sum := by
    intro L
    induction L with
    | nil => simp
    | cons l L ih =>
      rw [List.map_cons, List.sum_cons, ih, List.map_cons, List.sum_cons, List.length_cons]
      rw [coinCount_cons_true, coinCount_cons_false]
      push_cast
      ring
  show ((((coinOutcomes n).flatMap fun l => [true :: l, false :: l]).map
      fun l => (coinCount l : ℚ)).sum) = _
  rw [sum_map_bind_pair, aux, coinOutcomes_length]
  push_cast
  ring

theorem coinExpectation_eq_half : ∀ n : ℕ, coinExpectation n = (n : ℚ) / 2 := by
  intro n
  induction n with
  | zero => norm_num [coinExpectation, coinOutcomes, coinCount]
  | succ n ih =>
    unfold coinExpectation at ih ⊢
    rw [coinSum_succ]
    rw [div_eq_iff (by positivity : ((2 : ℚ) ^ n) ≠ 0)] at ih
    rw [ih, pow_succ]
    have h2 : ((2 : ℚ) ^ n) ≠ 0 := by positivity
    field_simp
    ring

theorem choice_mem (env : Env) (r : SeededRandom) {α : Type} (xs : List α) (hxs : xs ≠ [])
    (h0 : 0 ≤ env.noise r.seed) (h1 : env.noise r.seed < 1) :
    ∃ a ∈ xs, (SeededRandom.choice env r xs).1 = some a := by
  have hlen : 0 < xs.length := List.length_pos.mpr hxs
  unfold SeededRandom.choice SeededRandom.intIn SeededRandom.range SeededRandom.next
  dsimp only
  simp only [Int.cast_zero, zero_add, sub_zero]
  rw [show ((((xs.length : ℤ) - 1 : ℤ) : ℚ) + 1) = (xs.length : ℚ) by push_cast; ring]
  have hge : 0 ≤ ⌊env.noise r.seed * (xs.length : ℚ)⌋ := by
    apply Int.floor_nonneg.mpr
    positivity
  have hlt : ⌊env.noise r.seed * (xs.length : ℚ)⌋ < (xs.length : ℤ) := by
    apply Int.floor_lt.mpr
    calc env.noise r.seed * (xs.length : ℚ)
        < 1 * (xs.length : ℚ) := by
          apply mul_lt_mul_of_pos_right h1
          exact_mod_cast hlen
      _ = ((xs.length : ℤ) : ℚ) := by push_cast; ring
  have hnat : (⌊env.noise r.seed * (xs.length : ℚ)⌋).toNat < xs.length := by
    omega
  refine ⟨xs.get ⟨(⌊env.noise r.seed * (xs.length : ℚ)⌋).toNat, hnat⟩, List.get_mem _ _ _, ?_⟩
  rw [if_pos hge]
  exact List.get?_eq_get hnat

/-- C9 (amended): each call to `DDoSAttack.generatePackets(intensity)`
runs `ddosSlots intensity = ⌈(intensity/100)·packetsPerSecond·0.016⌉`
loop iterations; in each iteration, exactly when `next() < 0.5`, one
`'attack'` packet from a chosen attacker to the server is created
(`packetsSent` grows by 1, the new packet is appended); with a fair coin
per slot the expected number of packets per tick is
`ddosSlots intensity / 2` — not `(intensity/100)·packetsPerSecond·0.016`
itself. -/
theorem ddos_expected_packets :
    (∀ intensity : ℚ, coinExpectation (ddosSlots intensity) = (ddosSlots intensity : ℚ) / 2) ∧
    (∀ (env : Env) (server : Node) (attackers : List Node) (s : AttackSimulation),
      attackers ≠ [] → (∀ i : ℤ, 0 ≤ env.noise i ∧ env.noise i < 1) →
      ((DDoSAttack.genSlot env server attackers s).metrics.packetsSent
          = s.metrics.packetsSent + (if env.noise s.rng.seed < 1 / 2 then 1 else 0)) ∧
      (env.noise s.rng.seed < 1 / 2 →
        ∃ a ∈ attackers, (DDoSAttack.genSlot env server attackers s).packets
          = s.packets ++ [s.newPacket a server .attack 2])) := by
  constructor
  · intro intensity
    exact coinExpectation_eq_half (ddosSlots intensity)
  · intro env server attackers s hne hnoise
    unfold DDoSAttack.genSlot
    dsimp only [SeededRandom.next]
    by_cases hv : env.noise s.rng.seed < 1 / 2
    · simp only [if_pos hv]
      obtain ⟨a, hmem, hsome⟩ := choice_mem env { s.rng with seed := s.rng.seed + 1 }
        attackers hne (hnoise _).1 (hnoise _).2
      rw [hsome]
      dsimp only
      constructor
      · rfl
      · intro _
        exact ⟨a, hmem, rfl⟩
    · simp only [if_neg hv]
      exact ⟨by simp, fun hc => absurd hc hv⟩

/-- C9 counterexample: at intensity 100 the DDoS loop runs
`ddosSlots 100 = ⌈1.6⌉ = 2` slots, so the expected number of packets per
tick under a fair coin is 1 — not
`(100/100) · packetsPerSecond · 0.016 = 1.6` as the claim states. -/
theorem ddos_expected_packets_cex :
    coinExpectation (ddosSlots 100)
      ≠ 100 / 100 * SCENARIOS.ddos.packetsPerSecond * (16 / 1000) := by
  with_unfolding_all decide

/-- A free-standing attacker node for exercising one DDoS slot. -/
def nodeAtt : Node :=
  { id := "attacker-0", ntype := .attacker, x := 10, y := 10, radius := 15, connections := ["server"] }

/-- A free-standing server node for exercising one DDoS slot. -/
def nodeSrv : Node :=
  { id := "server", ntype := .server, x := 400, y := 300, radius := 40, connections := [] }

/-- A fresh DDoS simulation state for exercising one DDoS slot. -/
def simSlot : AttackSimulation :=
  AttackSimulation.mkSim .ddos SCENARIOS.ddos (SeededRandom.mkRandom 5) 800 600

/-- C9 witness: the expectation identity at intensity 50, and the
per-slot `packetsSent` behaviour at a concrete state under the
constant-1/2 noise environment. -/
theorem ddos_expected_packets_witness :
    coinExpectation (ddosSlots 50) = (ddosSlots 50 : ℚ) / 2 ∧
    (DDoSAttack.genSlot envHalf nodeSrv [nodeAtt] simSlot).metrics.packetsSent
      = simSlot.metrics.packetsSent
        + (if envHalf.noise simSlot.rng.seed < 1 / 2 then 1 else 0) :=
  ⟨ddos_expected_packets.1 50,
   (ddos_expected_packets.2 envHalf nodeSrv [nodeAtt] simSlot
      (by simp) (fun i => by constructor <;> norm_num [envHalf])).1⟩
